import Mathlib

/-!
# Noibat: the per-guild playback session of `bot.js`

A shallow embedding of the session state (`class MusicQueue`) and of the
handlers of `bot.js` that mutate it, followed by theorems about them.

Modelling conventions.

* A JavaScript array is a `List`; `push` appends at the end, `shift` removes the
  head, `unshift` adds at the head, `pop` removes the last element.
* `Date.now()` is a clock reading passed to the handler as an argument; the reads of one
  run of a handler give one instant.  A reading is a number of
  milliseconds since the Unix epoch and is positive (`Timestamp`), so that a stored
  reading passes the truthiness tests `if (guildQueue.songStartTime)` and
  `if (guildQueue.pauseStartTime)` exactly when it is not `null`; the tests are
  kept as `truthy` in the definitions.
* Durations are integers (`Int`); the floating point quotient by `1000` of an integer
  number of milliseconds is the rational quotient, and `Math.floor` of it is floor
  division.
* The voice connection, the audio player and the text channel are handles of
  external libraries and are not part of the state; whether starting a stream or
  sending a message throws is an input of the handler (`Attempt`).
* A handler runs as one step: the points where an `async` handler awaits are not
  interleaved with other handlers.  What a handler defers with `setTimeout`, and the
  `Idle` event that follows `player.stop()`, are later events of their own.
-/

namespace Noibat

/-! ## Data model -/

/-- A reading of `Date.now()`: milliseconds since the Unix epoch, positive. -/
structure Timestamp where
  ms : Int
  pos : 0 < ms
deriving DecidableEq

/-- The song object built by the play command (lines 126-132 and 223-229);
`duration` is the string `lengthSeconds`, `requestedBy` the id of the user. -/
structure Song where
  title : String
  url : String
  duration : String
  thumbnail : Option String
  requestedBy : String
deriving DecidableEq, Repr

/-- The value stored in `nowPlayingMessages` for one message. -/
structure MessageData where
  channelId : String
  messageId : String
  userId : String
deriving DecidableEq, Repr

/-- The two values of `currentView`. -/
inductive View where
  | nowplaying
  | queue
deriving DecidableEq, Repr

/-- The fields of `class MusicQueue` (lines 18-34) that the handlers read and write.
`nowPlayingMessages` is the `Map` in insertion order; `updateInterval` is `true`
when a timer object is stored and `false` when the field is `null`. -/
structure MusicQueue where
  songs : List Song
  isPlaying : Bool
  isPaused : Bool
  songStartTime : Option Timestamp
  pausedTime : Int
  pauseStartTime : Option Timestamp
  previousSongs : List Song
  nowPlayingMessages : List (String × MessageData)
  updateInterval : Bool
  currentView : View
deriving DecidableEq

/-- The state built by `new MusicQueue()`. -/
def MusicQueue.fresh : MusicQueue where
  songs := []
  isPlaying := false
  isPaused := false
  songStartTime := none
  pausedTime := 0
  pauseStartTime := none
  previousSongs := []
  nowPlayingMessages := []
  updateInterval := false
  currentView := View.nowplaying

/-- JavaScript truthiness of a field holding `null` or a clock reading:
`null` and `0` are falsy. -/
def truthy : Option Timestamp → Bool
  | none => false
  | some t => t.ms != 0

/-! ## The play command on an existing session -/

/-- The loop of lines 119-138: the first 50 videos of the playlist are resolved in
order; an entry is `none` when `ytdl.getInfo` threw for it, and is then skipped. -/
def loadPlaylist (videos : List (Option Song)) : List Song :=
  (videos.take 50).filterMap id

/-- What a play command has resolved when it reaches the session: one song, or the
loaded songs of a playlist. -/
inductive PlayRequest where
  | single (song : Song)
  | playlist (videos : List (Option Song))

/-- The tracks a request enqueues. -/
def PlayRequest.tracks : PlayRequest → List Song
  | .single song => [song]
  | .playlist videos => loadPlaylist videos

/-- The play command when `queue.get(guild.id)` is a session (the `else` branches at
lines 198-202 and 286-289).  A playlist of which no song could be loaded returns at
line 140 before it reaches the session. -/
def playExisting (guildQueue : MusicQueue) : PlayRequest → MusicQueue
  | .single song => { guildQueue with songs := guildQueue.songs ++ [song] }
  | .playlist videos =>
    let songs := loadPlaylist videos
    if songs.length = 0 then guildQueue
    else { guildQueue with songs := guildQueue.songs ++ songs }

/-! ## Tracked messages and teardown -/

/-- The method `Map.prototype.set` on `nowPlayingMessages`: the value of an existing key
is replaced in place, a new key is added at the end. -/
def mapSet (m : List (String × MessageData)) (key : String) (value : MessageData) :
    List (String × MessageData) :=
  if m.any (fun e => e.1 == key) then m.map (fun e => if e.1 == key then (key, value) else e)
  else m ++ [(key, value)]

/-- The function `startNowPlayingUpdates` on a registered session (lines 501-514): an
existing timer is cleared and a new one is stored. -/
def startNowPlayingUpdates (guildQueue : MusicQueue) : MusicQueue :=
  { guildQueue with updateInterval := true }

/-- The function `cleanupNowPlayingMessages` on a session (lines 743-776).  Fetching and
deleting the messages is inside `try`/`catch` blocks that swallow every error. -/
def cleanupNowPlayingMessages (guildQueue : MusicQueue) : MusicQueue :=
  if guildQueue.nowPlayingMessages.length = 0 then guildQueue
  else
    let q1 := { guildQueue with nowPlayingMessages := [] }
    if q1.updateInterval then { q1 with updateInterval := false } else q1

/-! ## Beginning playback: `playSong` -/

/-- What the outside world does during one run of the `try` block of `playSong`:
the clock reading, whether creating and playing the stream throws (lines 788-795), and
the message id and channel id of the sent embed, `none` when `createEmbed` or
`textChannel.send` throws (lines 804-805). -/
structure Attempt where
  now : Timestamp
  streamThrows : Bool
  sent : Option (String × String)

/-- A session after a handler, and whether the handler called `queue.delete(guild.id)`. -/
structure PlayResult where
  queue : MusicQueue
  deleted : Bool

/-- Lines 796-800 of `playSong`. -/
def beginFields (guildQueue : MusicQueue) (now : Timestamp) : MusicQueue :=
  { guildQueue with
    isPlaying := true
    isPaused := false
    songStartTime := some now
    pausedTime := 0
    pauseStartTime := none }

/-- Lines 808-817 of `playSong`: the sent message is tracked and the refresh timer is
started when none is stored. -/
def trackAuto (guildQueue : MusicQueue) (messageId channelId : String) : MusicQueue :=
  let q1 := { guildQueue with
    nowPlayingMessages := mapSet guildQueue.nowPlayingMessages messageId
      { channelId := channelId, messageId := messageId, userId := "auto" } }
  if !q1.updateInterval then startNowPlayingUpdates q1 else q1

/-- The `try` block of `playSong` (lines 787-818): the session when the block ends, and
whether it ended by a throw. -/
def tryStart (a : Attempt) (guildQueue : MusicQueue) (sendEmbed : Bool) : MusicQueue × Bool :=
  if a.streamThrows then (guildQueue, true)
  else
    let q1 := beginFields guildQueue a.now
    if sendEmbed then
      match a.sent with
      | none => (q1, true)
      | some (messageId, channelId) => (trackAuto q1 messageId channelId, false)
    else (q1, false)

/-- The function `playSong(guild, song, sendEmbed)` on the registered session of the
guild (lines 778-827).  The run number `i` selects what the world does in this run of
the `try` block; the recursive call in the `catch` block is run `i + 1`. -/
def playSong (env : Nat → Attempt) (guildQueue : MusicQueue) (song : Option Song)
    (sendEmbed : Bool) (i : Nat) : PlayResult :=
  match song with
  | none => { queue := cleanupNowPlayingMessages guildQueue, deleted := true }
  | some _ =>
    let r := tryStart (env i) guildQueue sendEmbed
    if r.2 then
      let q2 := { r.1 with songs := r.1.songs.tail }
      if 0 < q2.songs.length then playSong env q2 q2.songs.head? false (i + 1)
      else { queue := q2, deleted := false }
    else { queue := r.1, deleted := false }
termination_by guildQueue.songs.length
decreasing_by
  simp_wf
  rename_i h
  have hs : (tryStart (env i) guildQueue sendEmbed).1.songs = guildQueue.songs := by
    unfold tryStart
    split
    · rfl
    · dsimp only
      split
      · split
        · rfl
        · simp only [trackAuto, startNowPlayingUpdates]
          split <;> rfl
      · rfl
  have hr : r.1.songs = guildQueue.songs := hs
  simp only [hr, List.length_tail] at h
  simp only [hs, List.length_tail]
  omega

/-! ## The finish event -/

/-- Lines 256-263 (and 168-174) of the `Idle` handler: the finished song moves from the
head of `songs` to the end of `previousSongs`, of which the last 10 are kept. -/
def idleShift (queueContract : MusicQueue) : MusicQueue :=
  match queueContract.songs with
  | [] => queueContract
  | finishedSong :: rest =>
    let previousSongs := queueContract.previousSongs ++ [finishedSong]
    { queueContract with
      songs := rest
      previousSongs := if previousSongs.length > 10 then previousSongs.tail else previousSongs }

/-- The `Idle` handler of a registered session (lines 255-272 and 167-183). -/
def idleHandler (env : Nat → Attempt) (queueContract : MusicQueue) : PlayResult :=
  let q1 := idleShift queueContract
  if q1.songs.length > 0 then playSong env q1 q1.songs.head? false 0
  else { queue := cleanupNowPlayingMessages q1, deleted := true }

/-! ## Rewind, clear and the control buttons -/

/-- What a handler hands to `setTimeout` for a later run of `playSong`: nothing, the
song that is then `guildQueue.songs[0]`, or the song `currentSong` read by the handler;
the flag is the `sendEmbed` argument of that run. -/
inductive Scheduled where
  | nothing
  | playFirst (sendEmbed : Bool)
  | playCurrent (currentSong : Song) (sendEmbed : Bool)
deriving DecidableEq

/-- The value `timeSinceStart` of the rewind handlers (lines 313 and 463): seconds since
`songStartTime`, no pause time subtracted, and `0` when `songStartTime` is falsy. -/
def timeSinceStart (guildQueue : MusicQueue) (currentTime : Timestamp) : ℚ :=
  match guildQueue.songStartTime with
  | some songStartTime =>
    if truthy (some songStartTime) then ((currentTime.ms - songStartTime.ms : Int) : ℚ) / 1000
    else 0
  | none => 0

/-- The go-to-previous step of both rewind handlers (lines 317-318 and 466-467): the
last entry of `previousSongs` is popped and unshifted onto `songs`. -/
def goToPrevious (guildQueue : MusicQueue) (h : guildQueue.previousSongs.length > 0) :
    MusicQueue :=
  let previousSong := guildQueue.previousSongs.getLast (List.ne_nil_of_length_pos h)
  { guildQueue with
    previousSongs := guildQueue.previousSongs.dropLast
    songs := previousSong :: guildQueue.songs }

/-- The rewind command on the session of the guild (lines 304-336). -/
def rewindCommand (inVoice : Bool) (guildQueue : MusicQueue) (currentTime : Timestamp) :
    MusicQueue × Scheduled :=
  if !inVoice then (guildQueue, Scheduled.nothing)
  else if h0 : guildQueue.songs.length = 0 then (guildQueue, Scheduled.nothing)
  else
    if h : timeSinceStart guildQueue currentTime ≤ 10 ∧ guildQueue.previousSongs.length > 0 then
      (goToPrevious guildQueue h.2, Scheduled.playFirst true)
    else
      have : 0 < guildQueue.songs.length := Nat.pos_of_ne_zero h0
      let currentSong := guildQueue.songs[0]
      (guildQueue, Scheduled.playCurrent currentSong true)

/-- The clear command on the session of the guild (lines 337-347). -/
def clearCommand (inVoice : Bool) (guildQueue : MusicQueue) : MusicQueue :=
  if !inVoice then guildQueue
  else if h : guildQueue.songs.length ≤ 1 then guildQueue
  else
    have : 0 < guildQueue.songs.length := by omega
    let currentSong := guildQueue.songs[0]
    { guildQueue with songs := [currentSong] }

/-- The stop command on the session of the guild (lines 348-361). -/
def stopCommand (inVoice : Bool) (guildQueue : MusicQueue) : PlayResult :=
  if !inVoice then { queue := guildQueue, deleted := false }
  else
    let q1 := { guildQueue with songs := [] }
    { queue := cleanupNowPlayingMessages q1, deleted := true }

/-- The case `playpause_btn` (lines 432-445). -/
def playpause (guildQueue : MusicQueue) (now : Timestamp) : MusicQueue :=
  if guildQueue.isPaused then
    let q1 := { guildQueue with isPaused := false }
    match q1.pauseStartTime with
    | some pauseStartTime =>
      if truthy (some pauseStartTime) then
        { q1 with
          pausedTime := q1.pausedTime + (now.ms - pauseStartTime.ms)
          pauseStartTime := none }
      else q1
    | none => q1
  else { guildQueue with isPaused := true, pauseStartTime := some now }

/-- The case `rewind_btn` (lines 461-485), reached with `songs` not empty. -/
def rewindButton (guildQueue : MusicQueue) (h0 : guildQueue.songs.length ≠ 0)
    (currentTime : Timestamp) : MusicQueue × Scheduled :=
  if h : timeSinceStart guildQueue currentTime ≤ 10 ∧ guildQueue.previousSongs.length > 0 then
    (goToPrevious guildQueue h.2, Scheduled.playFirst false)
  else
    have : 0 < guildQueue.songs.length := Nat.pos_of_ne_zero h0
    let currentSong := guildQueue.songs[0]
    (guildQueue, Scheduled.playCurrent currentSong false)

/-- The values of `interaction.customId` that `handleButtonInteraction` handles. -/
inductive Button where
  | playpause_btn
  | skip_btn
  | rewind_btn
  | view_toggle_btn
deriving DecidableEq

/-- The function `handleButtonInteraction` on the session of the guild (lines 420-499).
Stopping the player (`skip_btn`, and inside `rewind_btn`) writes no field; the `Idle`
event it causes is a later event. -/
def handleButtonInteraction (inVoice : Bool) (guildQueue : MusicQueue) (customId : Button)
    (now : Timestamp) : MusicQueue × Scheduled :=
  if h0 : guildQueue.songs.length = 0 then (guildQueue, Scheduled.nothing)
  else if !inVoice then (guildQueue, Scheduled.nothing)
  else
    match customId with
    | Button.playpause_btn => (playpause guildQueue now, Scheduled.nothing)
    | Button.skip_btn => (guildQueue, Scheduled.nothing)
    | Button.rewind_btn => rewindButton guildQueue h0 now
    | Button.view_toggle_btn =>
      ({ guildQueue with
          currentView :=
            if guildQueue.currentView = View.nowplaying then View.queue else View.nowplaying },
        Scheduled.nothing)

/-! ## Elapsed play time -/

/-- The value `actualPlayTime` of `createNowPlayingEmbed` (lines 568-581) at the clock
reading `now`, which both reads of `Date.now()` return. -/
def actualPlayTime (guildQueue : MusicQueue) (now : Timestamp) : Int :=
  match guildQueue.songStartTime with
  | some songStartTime =>
    if truthy (some songStartTime) then
      let totalElapsed := now.ms - songStartTime.ms
      let currentPauseTime := guildQueue.pausedTime +
        (match guildQueue.pauseStartTime with
          | some pauseStartTime =>
            if guildQueue.isPaused && truthy (some pauseStartTime) then now.ms - pauseStartTime.ms
            else 0
          | none => 0)
      max 0 ((totalElapsed - currentPauseTime) / 1000)
    else 0
  | none => 0

/-! ## Traces of one session -/

/-- A session object and whether the registry `queue` still maps the guild to it. -/
structure Session where
  queue : MusicQueue
  registered : Bool

/-- The events that reach one session object. -/
inductive Event where
  | play (inVoice : Bool) (request : PlayRequest)
  | finish (env : Nat → Attempt)
  | rewind (inVoice : Bool) (now : Timestamp)
  | button (inVoice : Bool) (customId : Button) (now : Timestamp)
  | playSong (song : Option Song) (sendEmbed : Bool) (env : Nat → Attempt)
  | clear (inVoice : Bool)
  | stop (inVoice : Bool)

/-- One event on a session object.  A command or a run of `playSong` finds the object
through `queue.get(guild.id)` and so only while it is registered; the `Idle` handler
holds the object in its closure, and its call of `playSong` needs the registry. -/
def step (s : Session) : Event → Session
  | Event.play inVoice request =>
    if s.registered && inVoice then { s with queue := playExisting s.queue request } else s
  | Event.finish env =>
    if s.registered then
      let r := idleHandler env s.queue
      { queue := r.queue, registered := !r.deleted }
    else
      let q1 := idleShift s.queue
      if q1.songs.length > 0 then { s with queue := q1 }
      else { s with queue := cleanupNowPlayingMessages q1 }
  | Event.rewind inVoice now =>
    if s.registered then { s with queue := (rewindCommand inVoice s.queue now).1 } else s
  | Event.button inVoice customId now =>
    if s.registered then
      { s with queue := (handleButtonInteraction inVoice s.queue customId now).1 }
    else s
  | Event.playSong song sendEmbed env =>
    if s.registered then
      let r := playSong env s.queue song sendEmbed 0
      { queue := r.queue, registered := !r.deleted }
    else s
  | Event.clear inVoice =>
    if s.registered then { s with queue := clearCommand inVoice s.queue } else s
  | Event.stop inVoice =>
    if s.registered then
      let r := stopCommand inVoice s.queue
      { queue := r.queue, registered := !r.deleted }
    else s

/-- The session object after a sequence of events. -/
def run (s : Session) (events : List Event) : Session :=
  events.foldl step s

/-! ## The registry of sessions -/

/-- The registry `queue` (line 16): a `Map` from guild id to session, listed in insertion
order, one entry for a key.  A session object that a handler mutates is written back
under its key, which is what the shared reference does in the source. -/
abbrev Registry := List (String × MusicQueue)

/-- The method `queue.get(guildId)`; `none` is `undefined`. -/
def queueGet : Registry → String → Option MusicQueue
  | [], _ => none
  | (key, value) :: rest, guildId =>
    if key == guildId then some value else queueGet rest guildId

/-- The method `queue.set(guildId, value)`. -/
def queueSet : Registry → String → MusicQueue → Registry
  | [], guildId, value => [(guildId, value)]
  | (key, old) :: rest, guildId, value =>
    if key == guildId then (key, value) :: rest else (key, old) :: queueSet rest guildId value

/-- The method `queue.delete(guildId)`. -/
def queueDelete (queue : Registry) (guildId : String) : Registry :=
  queue.filter (fun e => e.1 != guildId)

/-- The function `playSong(guild, song, sendEmbed)` on the registry (lines 778-827): the
session is looked up by `queue.get(guild.id)`.  When there is none, the first use of
`guildQueue` throws and no state is written. -/
def playSongIn (env : Nat → Attempt) (queue : Registry) (guildId : String)
    (song : Option Song) (sendEmbed : Bool) : Registry :=
  match queueGet queue guildId with
  | none => queue
  | some guildQueue =>
    let r := playSong env guildQueue song sendEmbed 0
    if r.deleted then queueDelete queue guildId else queueSet queue guildId r.queue

/-- The `Idle` event of the player of guild `guildId`, on the registry (lines 255-272). -/
def idleEvent (env : Nat → Attempt) (queue : Registry) (guildId : String) : Registry :=
  match queueGet queue guildId with
  | none => queue
  | some queueContract =>
    let r := idleHandler env queueContract
    if r.deleted then queueDelete queue guildId else queueSet queue guildId r.queue

/-! ## The slash commands and the buttons on the registry -/

/-- The kinds of reply a handler sends: the "You need to be in a voice channel" replies
(lines 98, 296, 306, 339, 350, 428), the "There is no song" and "The queue is already
empty" replies (lines 299, 309, 342, 353, 424), the replies of a play request that
found or loaded nothing or threw (lines 116, 141, 215, 292), the reply "I could not
join the voice channel!" (lines 196, 284), and the reply or update of a handler that
ran the command. -/
inductive Reply where
  | needVoice
  | noSong
  | notFound
  | joinFailed
  | done
deriving DecidableEq

/-- What a handler leaves behind: the registry, its reply and what it deferred. -/
structure Handled where
  queue : Registry
  reply : Reply
  scheduled : Scheduled

/-- The slash commands that change a session, with what the outside world answers while
the command runs: for play, the resolved request (`none` when nothing was found or the
lookup threw), whether joining the voice channel or creating the player throws
(lines 153-188, 240-277), and the attempts of `playSong`. -/
inductive Command where
  | play (request : Option PlayRequest) (connectThrows : Bool) (env : Nat → Attempt)
  | skip
  | rewind (now : Timestamp)
  | clear
  | stop

/-- The play command (lines 96-293). -/
def playCommand (env : Nat → Attempt) (queue : Registry) (guildId : String) (inVoice : Bool)
    (request : Option PlayRequest) (connectThrows : Bool) : Handled :=
  if !inVoice then { queue := queue, reply := Reply.needVoice, scheduled := Scheduled.nothing }
  else
    match request with
    | none => { queue := queue, reply := Reply.notFound, scheduled := Scheduled.nothing }
    | some request =>
      if request.tracks.length = 0 then
        { queue := queue, reply := Reply.notFound, scheduled := Scheduled.nothing }
      else
        match queueGet queue guildId with
        | some guildQueue =>
          { queue := queueSet queue guildId (playExisting guildQueue request)
            reply := Reply.done, scheduled := Scheduled.nothing }
        | none =>
          let queueContract := MusicQueue.fresh
          let queue1 := queueSet queue guildId queueContract
          let queueContract := { queueContract with songs := queueContract.songs ++ request.tracks }
          let queue2 := queueSet queue1 guildId queueContract
          if connectThrows then
            { queue := queueDelete queue2 guildId, reply := Reply.joinFailed
              scheduled := Scheduled.nothing }
          else
            { queue := playSongIn env queue2 guildId queueContract.songs.head? true
              reply := Reply.done, scheduled := Scheduled.nothing }

/-- The function `handleSlashCommand` for the commands that change a session
(lines 92-361). -/
def handleSlashCommand (queue : Registry) (guildId : String) (inVoice : Bool) :
    Command → Handled
  | Command.play request connectThrows env =>
    playCommand env queue guildId inVoice request connectThrows
  | Command.skip =>
    if !inVoice then { queue := queue, reply := Reply.needVoice, scheduled := Scheduled.nothing }
    else
      match queueGet queue guildId with
      | none => { queue := queue, reply := Reply.noSong, scheduled := Scheduled.nothing }
      | some _ => { queue := queue, reply := Reply.done, scheduled := Scheduled.nothing }
  | Command.rewind now =>
    if !inVoice then { queue := queue, reply := Reply.needVoice, scheduled := Scheduled.nothing }
    else
      match queueGet queue guildId with
      | none => { queue := queue, reply := Reply.noSong, scheduled := Scheduled.nothing }
      | some guildQueue =>
        if guildQueue.songs.length = 0 then
          { queue := queue, reply := Reply.noSong, scheduled := Scheduled.nothing }
        else
          let r := rewindCommand inVoice guildQueue now
          { queue := queueSet queue guildId r.1, reply := Reply.done, scheduled := r.2 }
  | Command.clear =>
    if !inVoice then { queue := queue, reply := Reply.needVoice, scheduled := Scheduled.nothing }
    else
      match queueGet queue guildId with
      | none => { queue := queue, reply := Reply.noSong, scheduled := Scheduled.nothing }
      | some guildQueue =>
        if guildQueue.songs.length ≤ 1 then
          { queue := queue, reply := Reply.noSong, scheduled := Scheduled.nothing }
        else
          { queue := queueSet queue guildId (clearCommand inVoice guildQueue)
            reply := Reply.done, scheduled := Scheduled.nothing }
  | Command.stop =>
    if !inVoice then { queue := queue, reply := Reply.needVoice, scheduled := Scheduled.nothing }
    else
      match queueGet queue guildId with
      | none => { queue := queue, reply := Reply.noSong, scheduled := Scheduled.nothing }
      | some _ =>
        { queue := queueDelete queue guildId, reply := Reply.done
          scheduled := Scheduled.nothing }

/-- The function `handleButtonInteraction` on the registry (lines 420-499). -/
def handleButton (queue : Registry) (guildId : String) (inVoice : Bool) (customId : Button)
    (now : Timestamp) : Handled :=
  match queueGet queue guildId with
  | none => { queue := queue, reply := Reply.noSong, scheduled := Scheduled.nothing }
  | some guildQueue =>
    if guildQueue.songs.length = 0 then
      { queue := queue, reply := Reply.noSong, scheduled := Scheduled.nothing }
    else if !inVoice then
      { queue := queue, reply := Reply.needVoice, scheduled := Scheduled.nothing }
    else
      let r := handleButtonInteraction inVoice guildQueue customId now
      { queue := queueSet queue guildId r.1, reply := Reply.done, scheduled := r.2 }

/-! ## Refreshing and removing the tracked messages -/

/-- What happens to one tracked message in the loop of `updateNowPlayingMessages`
(lines 533-548): the channel is not in the cache, `fetch` gives no message, `fetch` or
`edit` throws, or the message is edited. -/
inductive UpdateOutcome where
  | noChannel
  | noMessage
  | throws
  | edited
deriving DecidableEq

/-- The method `nowPlayingMessages.delete(messageId)`. -/
def mapDelete (m : List (String × MessageData)) (key : String) : List (String × MessageData) :=
  m.filter (fun e => e.1 != key)

/-- The loop of lines 531-549 over the tracked messages, keyed by message id: the list
`messagesToRemove` and the edits that were done, each with the payload it sent. -/
def refreshLoop {P : Type} (payload : P) (outcome : String → UpdateOutcome) :
    List (String × MessageData) → List String × List (String × P)
  | [] => ([], [])
  | (messageId, _) :: rest =>
    let r := refreshLoop payload outcome rest
    match outcome messageId with
    | UpdateOutcome.edited => (r.1, (messageId, payload) :: r.2)
    | _ => (messageId :: r.1, r.2)

/-- The function `updateNowPlayingMessages` on the session of the guild (lines 516-563).
The payload is rendered once by `createEmbed`, whose result is an object of the
rendering library and is kept abstract. -/
def updateNowPlayingMessages {P : Type} (createEmbed : MusicQueue → P)
    (outcome : String → UpdateOutcome) (guildQueue : MusicQueue) :
    MusicQueue × List (String × P) :=
  if guildQueue.songs.length = 0 then
    (if guildQueue.updateInterval then { guildQueue with updateInterval := false }
      else guildQueue, [])
  else
    let payload := createEmbed guildQueue
    let r := refreshLoop payload outcome guildQueue.nowPlayingMessages
    let messagesToRemove := r.1
    let q1 :=
      if messagesToRemove.length > 0 then
        { guildQueue with
          nowPlayingMessages := messagesToRemove.foldl mapDelete guildQueue.nowPlayingMessages }
      else guildQueue
    let q2 :=
      if q1.nowPlayingMessages.length = 0 then { q1 with updateInterval := false } else q1
    (q2, r.2)

/-- What happens to one tracked message in the loop of `cleanupNowPlayingMessages`
(lines 747-766): no channel, no message, a throw of `fetch`, or the message is found
and its deletion is deferred by 5 seconds (a throw of that deletion is swallowed). -/
inductive FetchOutcome where
  | noChannel
  | noMessage
  | throws
  | found
deriving DecidableEq

/-- The function `cleanupNowPlayingMessages` with the loop of lines 747-766 written out:
the session afterwards, and the ids of the messages whose deletion is deferred. -/
def cleanupWithOutcomes (outcome : String → FetchOutcome) (guildQueue : MusicQueue) :
    MusicQueue × List String :=
  if guildQueue.nowPlayingMessages.length = 0 then (guildQueue, [])
  else
    let deferred := guildQueue.nowPlayingMessages.filterMap
      (fun e => match outcome e.1 with
        | FetchOutcome.found => some e.1
        | _ => none)
    let q1 := { guildQueue with nowPlayingMessages := [] }
    (if q1.updateInterval then { q1 with updateInterval := false } else q1, deferred)

/-! ## The progress bar -/

/-- The bar character of the progress bar, U+2501. -/
def barChar : Char := Char.ofNat 0x2501

/-- The slider of the progress bar, U+1F518. -/
def sliderChar : Char := Char.ofNat 0x1F518

/-- The method `String.prototype.repeat` on a one-character string, with an integer
count: a negative count throws a `RangeError`, which is `none`. -/
def jsRepeat (c : Char) (count : Int) : Option (List Char) :=
  if count < 0 then none else some (List.replicate count.toNat c)

/-- The value `percentage` of `createProgressBar` (line 592), the quotient taken in the
rationals. -/
def percentage (current total : Int) : ℚ :=
  if total > 0 then min ((current : ℚ) / (total : ℚ)) 1 else 0

/-- The value `filledLength` of `createProgressBar` (line 594); `Math.round(x)` is
`floor(x + 1/2)`. -/
def filledLength (current total : Int) : Int :=
  ⌊(15 : ℚ) * percentage current total + 1 / 2⌋

/-- The function `createProgressBar(current, total)` (lines 591-608); `none` when one of
the two calls of `repeat` throws. -/
def createProgressBar (current total : Int) : Option String :=
  let progressLength : Int := 15
  let filledLength := filledLength current total
  match jsRepeat barChar filledLength, jsRepeat barChar (progressLength - filledLength) with
  | some filled, some empty =>
    if filledLength = 0 then some (String.mk (sliderChar :: empty))
    else if filledLength = progressLength then some (String.mk (filled ++ [sliderChar]))
    else some (String.mk (filled ++ sliderChar :: empty))
  | _, _ => none

/-! ## Traces with the tracked messages -/

/-- The nowplaying command on the session of the guild (lines 378-398).  `response` is
the id of the fetched reply, `none` when `createEmbed`, `reply` or `fetchReply` throws
before the message is tracked. -/
def nowplayingCommand (guildQueue : MusicQueue) (response : Option String)
    (channelId userId : String) : MusicQueue :=
  if guildQueue.songs.length = 0 then guildQueue
  else
    match response with
    | none => guildQueue
    | some id =>
      let q1 := { guildQueue with
        nowPlayingMessages := mapSet guildQueue.nowPlayingMessages id
          { channelId := channelId, messageId := id, userId := userId } }
      if !q1.updateInterval then startNowPlayingUpdates q1 else q1

/-- The events of `Event`, the nowplaying command and a tick of the refresh timer: every
handler that writes `nowPlayingMessages` or `updateInterval`. -/
inductive ViewEvent where
  | session (e : Event)
  | nowplaying (response : Option String) (channelId userId : String)
  | refresh (outcome : String → UpdateOutcome)

/-- One event of `ViewEvent` on a session object.  The nowplaying command and the tick
of the timer find the session through `queue.get`, so only while it is registered. -/
def stepView (s : Session) : ViewEvent → Session
  | ViewEvent.session e => step s e
  | ViewEvent.nowplaying response channelId userId =>
    if s.registered then
      { s with queue := nowplayingCommand s.queue response channelId userId }
    else s
  | ViewEvent.refresh outcome =>
    if s.registered then
      { s with queue := (updateNowPlayingMessages (fun _ => ()) outcome s.queue).1 }
    else s

/-- The session object after a sequence of events of `ViewEvent`. -/
def runView (s : Session) (events : List ViewEvent) : Session :=
  events.foldl stepView s

/-! ## Specification-side definitions and example data -/

/-- Songs and a full history for the examples. -/
def songA : Song :=
  { title := "A", url := "https://youtu.be/a", duration := "200", thumbnail := none,
    requestedBy := "u1" }

def songB : Song :=
  { title := "B", url := "https://youtu.be/b", duration := "0", thumbnail := none,
    requestedBy := "u2" }

def fullHistory : Session :=
  { queue := { MusicQueue.fresh with songs := [songB], previousSongs := List.replicate 10 songA }
    registered := true }

def startsAt1000 : Nat → Attempt :=
  fun _ => { now := { ms := 1000, pos := by decide }, streamThrows := false, sent := none }

/-- The elapsed play time as the specification writes it, computed in the rationals:
`max(0, floor(((now - songStartTime) - (pausedTime + inProgress)) / 1000))`, where
`inProgress` is `now - pauseStartTime` when the session is paused and `pauseStartTime`
is set, and `0` otherwise. -/
def elapsedFormula (songStartTime : Timestamp) (pausedTime : Int) (isPaused : Bool)
    (pauseStartTime : Option Timestamp) (now : Timestamp) : Int :=
  let inProgress : ℚ :=
    match pauseStartTime with
    | some p => if isPaused then (now.ms : ℚ) - (p.ms : ℚ) else 0
    | none => 0
  max 0 ⌊(((now.ms : ℚ) - (songStartTime.ms : ℚ)) - ((pausedTime : ℚ) + inProgress)) / 1000⌋

/-- A session whose song started after the clock reading used in the example. -/
def startedAt1000 : MusicQueue :=
  { MusicQueue.fresh with
    songs := [songA]
    isPlaying := true
    songStartTime := some { ms := 1000, pos := by decide }
    pausedTime := 250 }

/-- The invariant of the pause fields: `pauseStartTime` is set exactly when `isPaused`. -/
def pauseInv (q : MusicQueue) : Prop :=
  q.pauseStartTime ≠ none ↔ q.isPaused = true

/-- The raw time since the track started, in seconds, as the specification reads it:
`now` minus `songStartTime` over `1000`, nothing subtracted for pauses, and `0` when
`songStartTime` is not set. -/
def rawSecondsSinceStart (q : MusicQueue) (now : Timestamp) : ℚ :=
  match q.songStartTime with
  | some start => ((now.ms : ℚ) - (start.ms : ℚ)) / 1000
  | none => 0

/-- A session ten seconds into its second song, the first one in the history. -/
def secondSong : MusicQueue :=
  { startedAt1000 with songs := [songB], previousSongs := [songA] }

/-- A registry with one session, of one song. -/
def oneSongRegistry : Registry :=
  [("g1", { MusicQueue.fresh with songs := [songA] })]

/-- A world in which every start of a stream throws. -/
def alwaysThrows : Nat → Attempt :=
  fun _ => { now := { ms := 1000, pos := by decide }, streamThrows := true, sent := none }

/-- A world in which the first start of a stream throws and the later ones succeed. -/
def throwsOnce : Nat → Attempt :=
  fun i => { now := { ms := 1000, pos := by decide }, streamThrows := i == 0, sent := none }

/-- A session with three songs. -/
def threeSongs : MusicQueue :=
  { startedAt1000 with songs := [songA, songB, songA] }

/-- The invariant of the refresh timer: a timer is stored only while a message is
tracked. -/
def viewInv (q : MusicQueue) : Prop :=
  q.nowPlayingMessages = [] → q.updateInterval = false

/-- A session with two tracked messages. -/
def twoTracked : MusicQueue :=
  { startedAt1000 with
    nowPlayingMessages :=
      [("m1", { channelId := "c1", messageId := "m1", userId := "auto" }),
       ("m2", { channelId := "c1", messageId := "m2", userId := "u1" })]
    updateInterval := true }

/-! # Theorems -/

theorem tryStart_songs (a : Attempt) (guildQueue : MusicQueue) (sendEmbed : Bool) :
    (tryStart a guildQueue sendEmbed).1.songs = guildQueue.songs := by
  unfold tryStart
  split
  · rfl
  · dsimp only
    split
    · split
      · rfl
      · simp only [trackAuto, startNowPlayingUpdates]
        split <;> rfl
    · rfl

/-! ## Enqueueing -/

theorem playExisting_songs (q : MusicQueue) (r : PlayRequest) :
    (playExisting q r).songs = q.songs ++ r.tracks := by
  cases r with
  | single song => rfl
  | playlist videos =>
    simp only [playExisting, PlayRequest.tracks]
    split
    · next h => simp [List.length_eq_zero.mp h]
    · rfl

theorem foldl_playExisting_songs (requests : List PlayRequest) (q : MusicQueue) :
    (requests.foldl playExisting q).songs
      = q.songs ++ (requests.map PlayRequest.tracks).flatten := by
  induction requests generalizing q with
  | nil => simp
  | cons r rs ih => simp [ih, playExisting_songs, List.append_assoc]

/-- C1: after any sequence of play requests on an existing session, `songs` is the old
`songs` followed by the enqueued tracks in the order they were enqueued; its length
grows by the number of enqueued tracks and its first part, of the old length, is the
old `songs`. -/
theorem enqueue_fifo (q : MusicQueue) (requests : List PlayRequest) :
    (requests.foldl playExisting q).songs
        = q.songs ++ (requests.map PlayRequest.tracks).flatten
      ∧ (requests.foldl playExisting q).songs.length
        = q.songs.length + ((requests.map PlayRequest.tracks).flatten).length
      ∧ (requests.foldl playExisting q).songs.take q.songs.length = q.songs := by
  have h := foldl_playExisting_songs requests q
  refine ⟨h, ?_, ?_⟩
  · rw [h, List.length_append]
  · rw [h, List.take_left]

/-! ## Frame lemmas -/

theorem cleanup_frame (q : MusicQueue) :
    (cleanupNowPlayingMessages q).songs = q.songs
      ∧ (cleanupNowPlayingMessages q).previousSongs = q.previousSongs
      ∧ (cleanupNowPlayingMessages q).isPaused = q.isPaused
      ∧ (cleanupNowPlayingMessages q).pauseStartTime = q.pauseStartTime := by
  unfold cleanupNowPlayingMessages
  split
  · exact ⟨rfl, rfl, rfl, rfl⟩
  · dsimp only
    split <;> exact ⟨rfl, rfl, rfl, rfl⟩

theorem tryStart_previousSongs (a : Attempt) (q : MusicQueue) (b : Bool) :
    (tryStart a q b).1.previousSongs = q.previousSongs := by
  unfold tryStart
  split
  · rfl
  · dsimp only
    split
    · split
      · rfl
      · simp only [trackAuto, startNowPlayingUpdates]
        split <;> rfl
    · rfl

/-- A property of the session that the `try` block, the `shift` of the `catch` block and
the teardown keep is kept by `playSong`. -/
theorem playSong_preserves (P : MusicQueue → Prop)
    (hTry : ∀ a q b, P q → P (tryStart a q b).1)
    (hTail : ∀ q : MusicQueue, P q → P { q with songs := q.songs.tail })
    (hClean : ∀ q, P q → P (cleanupNowPlayingMessages q))
    (env : Nat → Attempt) :
    ∀ (n : Nat) (q : MusicQueue) (song : Option Song) (b : Bool) (i : Nat),
      q.songs.length = n → P q → P (playSong env q song b i).queue := by
  intro n
  induction n using Nat.strong_induction_on with
  | _ n ih =>
    intro q song b i hn hP
    cases song with
    | none =>
      rw [playSong]
      exact hClean q hP
    | some sg =>
      rw [playSong]
      dsimp only
      split
      · split
        · next hpos =>
          have hs := tryStart_songs (env i) q b
          simp only [hs, List.length_tail] at hpos
          refine ih (q.songs.length - 1) (by omega) _ _ _ _ ?_ (hTail _ (hTry _ _ _ hP))
          simp only [hs, List.length_tail]
        · exact hTail _ (hTry _ _ _ hP)
      · exact hTry _ _ _ hP

theorem playSong_previousSongs (env : Nat → Attempt) (q : MusicQueue) (song : Option Song)
    (b : Bool) (i : Nat) :
    (playSong env q song b i).queue.previousSongs = q.previousSongs := by
  refine playSong_preserves (fun q1 => q1.previousSongs = q.previousSongs) ?_ ?_ ?_ env
    q.songs.length q song b i rfl rfl
  · intro a q1 b1 h
    rw [tryStart_previousSongs]
    exact h
  · intro q1 h
    exact h
  · intro q1 h
    rw [(cleanup_frame q1).2.1]
    exact h

/-! ## The bounded history -/

theorem idleShift_previousSongs_le (q : MusicQueue) (h : q.previousSongs.length ≤ 10) :
    (idleShift q).previousSongs.length ≤ 10 := by
  unfold idleShift
  split
  · exact h
  · dsimp only
    split
    · next hgt =>
      simp only [List.length_tail, List.length_append, List.length_singleton] at hgt ⊢
      omega
    · next hle => exact Nat.le_of_not_lt hle

theorem idleHandler_previousSongs (env : Nat → Attempt) (q : MusicQueue) :
    (idleHandler env q).queue.previousSongs = (idleShift q).previousSongs := by
  unfold idleHandler
  dsimp only
  split
  · exact playSong_previousSongs _ _ _ _ _
  · exact (cleanup_frame _).2.1

theorem rewindCommand_previousSongs_le (inVoice : Bool) (q : MusicQueue) (now : Timestamp) :
    (rewindCommand inVoice q now).1.previousSongs.length ≤ q.previousSongs.length := by
  unfold rewindCommand
  split
  · exact Nat.le_refl _
  · split
    · exact Nat.le_refl _
    · split
      · simp [goToPrevious]
      · exact Nat.le_refl _

theorem playpause_previousSongs (q : MusicQueue) (now : Timestamp) :
    (playpause q now).previousSongs = q.previousSongs := by
  unfold playpause
  split
  · dsimp only
    split
    · split <;> rfl
    · rfl
  · rfl

theorem handleButtonInteraction_previousSongs_le (inVoice : Bool) (q : MusicQueue)
    (customId : Button) (now : Timestamp) :
    (handleButtonInteraction inVoice q customId now).1.previousSongs.length
      ≤ q.previousSongs.length := by
  unfold handleButtonInteraction
  split
  · exact Nat.le_refl _
  · split
    · exact Nat.le_refl _
    · cases customId with
      | playpause_btn => simp [playpause_previousSongs]
      | skip_btn => exact Nat.le_refl _
      | rewind_btn =>
        dsimp only
        unfold rewindButton
        split
        · simp [goToPrevious]
        · exact Nat.le_refl _
      | view_toggle_btn => exact Nat.le_refl _

theorem clearCommand_previousSongs (inVoice : Bool) (q : MusicQueue) :
    (clearCommand inVoice q).previousSongs = q.previousSongs := by
  unfold clearCommand
  split
  · rfl
  · split <;> rfl

theorem stopCommand_previousSongs (inVoice : Bool) (q : MusicQueue) :
    (stopCommand inVoice q).queue.previousSongs = q.previousSongs := by
  unfold stopCommand
  split
  · rfl
  · exact (cleanup_frame _).2.1

theorem playExisting_previousSongs (q : MusicQueue) (r : PlayRequest) :
    (playExisting q r).previousSongs = q.previousSongs := by
  cases r with
  | single song => rfl
  | playlist videos =>
    simp only [playExisting]
    split <;> rfl

theorem step_previousSongs_le (s : Session) (e : Event)
    (h : s.queue.previousSongs.length ≤ 10) :
    (step s e).queue.previousSongs.length ≤ 10 := by
  cases e with
  | play inVoice request =>
    simp only [step]
    split
    · simpa [playExisting_previousSongs] using h
    · exact h
  | finish env =>
    simp only [step]
    split
    · simp only [idleHandler_previousSongs]
      exact idleShift_previousSongs_le _ h
    · split
      · exact idleShift_previousSongs_le _ h
      · rw [(cleanup_frame _).2.1]
        exact idleShift_previousSongs_le _ h
  | rewind inVoice now =>
    simp only [step]
    split
    · exact Nat.le_trans (rewindCommand_previousSongs_le _ _ _) h
    · exact h
  | button inVoice customId now =>
    simp only [step]
    split
    · exact Nat.le_trans (handleButtonInteraction_previousSongs_le _ _ _ _) h
    · exact h
  | playSong song sendEmbed env =>
    simp only [step]
    split
    · simpa [playSong_previousSongs] using h
    · exact h
  | clear inVoice =>
    simp only [step]
    split
    · simpa [clearCommand_previousSongs] using h
    · exact h
  | stop inVoice =>
    simp only [step]
    split
    · simpa [stopCommand_previousSongs] using h
    · exact h

theorem run_previousSongs_le (events : List Event) (s : Session)
    (h : s.queue.previousSongs.length ≤ 10) :
    (run s events).queue.previousSongs.length ≤ 10 := by
  induction events generalizing s with
  | nil => exact h
  | cons e es ih => exact ih (step s e) (step_previousSongs_le s e h)

theorem step_finish_evicts (s : Session) (env : Nat → Attempt) (finished : Song)
    (rest : List Song) (hs : s.queue.songs = finished :: rest)
    (hfull : s.queue.previousSongs.length = 10) :
    (step s (Event.finish env)).queue.previousSongs
      = s.queue.previousSongs.tail ++ [finished] := by
  have hshift : (idleShift s.queue).previousSongs = s.queue.previousSongs.tail ++ [finished] := by
    unfold idleShift
    rw [hs]
    dsimp only
    rw [if_pos (by simp [hfull])]
    cases hp : s.queue.previousSongs with
    | nil => simp [hp] at hfull
    | cons p ps => rfl
  simp only [step]
  split
  · rw [idleHandler_previousSongs, hshift]
  · split
    · exact hshift
    · rw [(cleanup_frame _).2.1, hshift]

/-- C2: from a fresh `MusicQueue`, after any sequence of play, finish, rewind, clear,
stop, button and begin-playback events, `previousSongs` has at most 10 entries; and a
finish event on a session whose history holds 10 entries leaves the old history
without its first entry, followed by the finished song. -/
theorem history_bounded (registered : Bool) (events : List Event) (s : Session)
    (env : Nat → Attempt) (finished : Song) (rest : List Song) :
    (run { queue := MusicQueue.fresh, registered := registered } events).queue.previousSongs.length
        ≤ 10
      ∧ (s.queue.songs = finished :: rest → s.queue.previousSongs.length = 10 →
          (step s (Event.finish env)).queue.previousSongs
            = s.queue.previousSongs.tail ++ [finished]) :=
  ⟨run_previousSongs_le events _ (by simp [MusicQueue.fresh]),
    step_finish_evicts s env finished rest⟩

theorem history_bounded_witness :
    (run { queue := MusicQueue.fresh, registered := true }
        [Event.play true (PlayRequest.single songA)]).queue.previousSongs.length ≤ 10
      ∧ (step fullHistory (Event.finish startsAt1000)).queue.previousSongs
          = fullHistory.queue.previousSongs.tail ++ [songB] :=
  ⟨(history_bounded true [Event.play true (PlayRequest.single songA)] fullHistory
      startsAt1000 songB []).1,
    (history_bounded true [] fullHistory startsAt1000 songB []).2 rfl rfl⟩

/-! ## Rewind and advance -/

/-- C3: on a session whose history is not empty, the go-to-previous step of rewind
followed by the shift of the finish event gives back the `songs` list from before the
rewind. -/
theorem rewind_advance_roundtrip (q : MusicQueue) (h : q.previousSongs.length > 0) :
    (idleShift (goToPrevious q h)).songs = q.songs := by
  simp [goToPrevious, idleShift]

theorem rewind_advance_roundtrip_witness :
    (idleShift (goToPrevious fullHistory.queue (by decide))).songs = fullHistory.queue.songs :=
  rewind_advance_roundtrip fullHistory.queue (by decide)

/-! ## Elapsed play time -/

theorem truthy_some (t : Timestamp) : truthy (some t) = true := by
  have h : t.ms ≠ 0 := Int.ne_of_gt t.pos
  simp [truthy, h]

theorem floor_div_thousand (a : Int) : ⌊(a : ℚ) / 1000⌋ = a / 1000 := by
  have h := Rat.floor_intCast_div_natCast a 1000
  simpa using h

/-- The value of `actualPlayTime` when `songStartTime` is set, with the pause still in
progress written out. -/
theorem actualPlayTime_eq (q : MusicQueue) (start : Timestamp) (now : Timestamp)
    (h : q.songStartTime = some start) :
    actualPlayTime q now
      = max 0 ((now.ms - start.ms - (q.pausedTime +
          (match q.pauseStartTime with
            | some p => if q.isPaused then now.ms - p.ms else 0
            | none => 0))) / 1000) := by
  unfold actualPlayTime
  rw [h]
  simp only [truthy_some, if_true]
  cases q.pauseStartTime with
  | none => rfl
  | some p => simp only [truthy_some, Bool.and_true]

theorem actualPlayTime_nonneg (q : MusicQueue) (now : Timestamp) :
    0 ≤ actualPlayTime q now := by
  unfold actualPlayTime
  split
  · split
    · exact le_max_left _ _
    · exact le_refl _
  · exact le_refl _

/-- C4: when `songStartTime` is set, `actualPlayTime` at the clock reading `now` is
`max(0, floor(((now - songStartTime) - (pausedTime + inProgress)) / 1000))` with
`inProgress = now - pauseStartTime` when paused with `pauseStartTime` set and `0`
otherwise; it is never negative, whatever the clock readings are. -/
theorem actualPlayTime_formula (q : MusicQueue) (start : Timestamp) (now : Timestamp)
    (h : q.songStartTime = some start) :
    actualPlayTime q now = elapsedFormula start q.pausedTime q.isPaused q.pauseStartTime now
      ∧ 0 ≤ actualPlayTime q now := by
  refine ⟨?_, actualPlayTime_nonneg q now⟩
  rw [actualPlayTime_eq q start now h]
  unfold elapsedFormula
  cases hp : q.pauseStartTime with
  | none =>
    dsimp only
    rw [← floor_div_thousand]
    push_cast
    rfl
  | some p =>
    dsimp only
    rw [← floor_div_thousand]
    cases q.isPaused <;> simp

theorem actualPlayTime_formula_witness :
    actualPlayTime startedAt1000 { ms := 500, pos := by decide }
        = elapsedFormula { ms := 1000, pos := by decide } startedAt1000.pausedTime
            startedAt1000.isPaused startedAt1000.pauseStartTime { ms := 500, pos := by decide }
      ∧ 0 ≤ actualPlayTime startedAt1000 { ms := 500, pos := by decide } :=
  actualPlayTime_formula startedAt1000 { ms := 1000, pos := by decide }
    { ms := 500, pos := by decide } rfl

/-- C5: for one session state and two clock readings `now1 ≤ now2`, the elapsed play
time does not decrease while the session is not paused, and is the same at both
readings while it is paused with `pauseStartTime` set. -/
theorem actualPlayTime_monotone_frozen (q : MusicQueue) (now1 now2 : Timestamp)
    (hle : now1.ms ≤ now2.ms) :
    (q.isPaused = false → actualPlayTime q now1 ≤ actualPlayTime q now2)
      ∧ (q.isPaused = true → q.pauseStartTime ≠ none →
          actualPlayTime q now1 = actualPlayTime q now2) := by
  cases hs : q.songStartTime with
  | none =>
    have h0 : ∀ now, actualPlayTime q now = 0 := by
      intro now
      unfold actualPlayTime
      rw [hs]
    simp [h0]
  | some start =>
    rw [actualPlayTime_eq q start now1 hs, actualPlayTime_eq q start now2 hs]
    constructor
    · intro hp
      rw [hp]
      apply max_le_max (le_refl _)
      apply Int.ediv_le_ediv (by decide)
      cases q.pauseStartTime with
      | none =>
        dsimp only
        omega
      | some p =>
        simp only [Bool.false_eq_true, if_false]
        omega
    · intro hp hset
      rw [hp]
      cases hq : q.pauseStartTime with
      | none => exact absurd hq hset
      | some p =>
        simp only [if_true]
        have he : now1.ms - start.ms - (q.pausedTime + (now1.ms - p.ms))
            = now2.ms - start.ms - (q.pausedTime + (now2.ms - p.ms)) := by omega
        rw [he]

theorem actualPlayTime_monotone_frozen_witness :
    (startedAt1000.isPaused = false →
        actualPlayTime startedAt1000 { ms := 4000, pos := by decide }
          ≤ actualPlayTime startedAt1000 { ms := 9000, pos := by decide })
      ∧ (startedAt1000.isPaused = true → startedAt1000.pauseStartTime ≠ none →
          actualPlayTime startedAt1000 { ms := 4000, pos := by decide }
            = actualPlayTime startedAt1000 { ms := 9000, pos := by decide }) :=
  actualPlayTime_monotone_frozen startedAt1000 { ms := 4000, pos := by decide }
    { ms := 9000, pos := by decide } (by decide)

/-! ## Pause and resume -/

theorem handleButtonInteraction_playpause (q : MusicQueue) (now : Timestamp)
    (hsongs : q.songs.length ≠ 0) :
    (handleButtonInteraction true q Button.playpause_btn now).1 = playpause q now := by
  unfold handleButtonInteraction
  simp [hsongs]

theorem playpause_songs (q : MusicQueue) (now : Timestamp) :
    (playpause q now).songs = q.songs := by
  unfold playpause
  split
  · dsimp only
    split
    · split <;> rfl
    · rfl
  · rfl

/-- C6: on a playing session with `songStartTime` set, a press of the play/pause button
at `p` pauses and stores `p`; a second press at `r` (any `r`, so every `r ≥ p`) adds
`r - p` to `pausedTime` and clears `pauseStartTime`; the elapsed play time at `r` after
the resume is the one reported at `p` when the pause began. -/
theorem pause_resume_keeps_elapsed (q : MusicQueue) (start p r : Timestamp)
    (hsongs : q.songs.length ≠ 0) (hplaying : q.isPaused = false)
    (hstart : q.songStartTime = some start) :
    let q1 := (handleButtonInteraction true q Button.playpause_btn p).1
    let q2 := (handleButtonInteraction true q1 Button.playpause_btn r).1
    q1.isPaused = true ∧ q1.pauseStartTime = some p ∧ q1.pausedTime = q.pausedTime
      ∧ q2.isPaused = false ∧ q2.pauseStartTime = none
      ∧ q2.pausedTime = q1.pausedTime + (r.ms - p.ms)
      ∧ actualPlayTime q2 r = actualPlayTime q1 p
      ∧ actualPlayTime q1 p = actualPlayTime q p := by
  intro q1 q2
  have e1 : q1 = playpause q p := handleButtonInteraction_playpause q p hsongs
  have hsongs1 : q1.songs.length ≠ 0 := by rw [e1, playpause_songs]; exact hsongs
  have e2 : q2 = playpause q1 r := handleButtonInteraction_playpause q1 r hsongs1
  have v1 : q1 = { q with isPaused := true, pauseStartTime := some p } := by
    rw [e1]
    unfold playpause
    simp [hplaying]
  have v2 : q2 = { q with
      isPaused := false
      pausedTime := q.pausedTime + (r.ms - p.ms)
      pauseStartTime := none } := by
    rw [e2, v1]
    unfold playpause
    simp [truthy_some]
  have a1 : actualPlayTime q1 p = max 0 ((p.ms - start.ms - (q.pausedTime + (p.ms - p.ms))) / 1000) := by
    rw [actualPlayTime_eq q1 start p (by rw [v1]; exact hstart), v1]
    simp
  have a2 : actualPlayTime q2 r
      = max 0 ((r.ms - start.ms - (q.pausedTime + (r.ms - p.ms) + 0)) / 1000) := by
    rw [actualPlayTime_eq q2 start r (by rw [v2]; exact hstart), v2]
  have a0 : actualPlayTime q p
      = max 0 ((p.ms - start.ms - (q.pausedTime +
          (match q.pauseStartTime with
            | some p0 => if q.isPaused then p.ms - p0.ms else 0
            | none => 0))) / 1000) := actualPlayTime_eq q start p hstart
  refine ⟨by rw [v1], by rw [v1], by rw [v1], by rw [v2], by rw [v2], by rw [v2, v1], ?_, ?_⟩
  · rw [a1, a2]
    congr 2
    omega
  · rw [a1, a0, hplaying]
    congr 2
    cases q.pauseStartTime <;> simp

theorem pause_resume_keeps_elapsed_witness :
    let p : Timestamp := { ms := 11000, pos := by decide }
    let r : Timestamp := { ms := 16000, pos := by decide }
    let q1 := (handleButtonInteraction true startedAt1000 Button.playpause_btn p).1
    let q2 := (handleButtonInteraction true q1 Button.playpause_btn r).1
    q1.isPaused = true ∧ q1.pauseStartTime = some p ∧ q1.pausedTime = startedAt1000.pausedTime
      ∧ q2.isPaused = false ∧ q2.pauseStartTime = none
      ∧ q2.pausedTime = q1.pausedTime + (r.ms - p.ms)
      ∧ actualPlayTime q2 r = actualPlayTime q1 p
      ∧ actualPlayTime q1 p = actualPlayTime startedAt1000 p :=
  pause_resume_keeps_elapsed startedAt1000 { ms := 1000, pos := by decide }
    { ms := 11000, pos := by decide } { ms := 16000, pos := by decide } (by decide) rfl rfl

/-! ## The pause invariant -/

theorem tryStart_pauseInv (a : Attempt) (q : MusicQueue) (b : Bool) (h : pauseInv q) :
    pauseInv (tryStart a q b).1 := by
  unfold tryStart
  split
  · exact h
  · dsimp only
    split
    · split
      · simp [pauseInv, beginFields]
      · simp only [trackAuto, startNowPlayingUpdates]
        split <;> simp [pauseInv, beginFields]
    · simp [pauseInv, beginFields]

theorem cleanup_pauseInv (q : MusicQueue) (h : pauseInv q) :
    pauseInv (cleanupNowPlayingMessages q) := by
  have hf := cleanup_frame q
  unfold pauseInv at h ⊢
  rw [hf.2.2.1, hf.2.2.2]
  exact h

theorem playSong_pauseInv (env : Nat → Attempt) (q : MusicQueue) (song : Option Song)
    (b : Bool) (i : Nat) (h : pauseInv q) : pauseInv (playSong env q song b i).queue :=
  playSong_preserves pauseInv tryStart_pauseInv (fun _ h1 => h1) cleanup_pauseInv env
    q.songs.length q song b i rfl h

theorem idleShift_pauseInv (q : MusicQueue) (h : pauseInv q) : pauseInv (idleShift q) := by
  unfold idleShift
  split
  · exact h
  · exact h

theorem idleHandler_pauseInv (env : Nat → Attempt) (q : MusicQueue) (h : pauseInv q) :
    pauseInv (idleHandler env q).queue := by
  unfold idleHandler
  dsimp only
  split
  · exact playSong_pauseInv _ _ _ _ _ (idleShift_pauseInv q h)
  · exact cleanup_pauseInv _ (idleShift_pauseInv q h)

theorem playpause_pauseInv (q : MusicQueue) (now : Timestamp) :
    pauseInv (playpause q now) := by
  unfold playpause
  split
  · dsimp only
    split
    · simp [truthy_some, pauseInv]
    · next hn => simp [pauseInv, hn]
  · simp [pauseInv]

theorem rewindCommand_pauseInv (inVoice : Bool) (q : MusicQueue) (now : Timestamp)
    (h : pauseInv q) : pauseInv (rewindCommand inVoice q now).1 := by
  unfold rewindCommand
  split
  · exact h
  · split
    · exact h
    · split
      · exact h
      · exact h

theorem handleButtonInteraction_pauseInv (inVoice : Bool) (q : MusicQueue)
    (customId : Button) (now : Timestamp) (h : pauseInv q) :
    pauseInv (handleButtonInteraction inVoice q customId now).1 := by
  unfold handleButtonInteraction
  split
  · exact h
  · split
    · exact h
    · cases customId with
      | playpause_btn => exact playpause_pauseInv q now
      | skip_btn => exact h
      | rewind_btn =>
        dsimp only
        unfold rewindButton
        split
        · exact h
        · exact h
      | view_toggle_btn => exact h

theorem clearCommand_pauseInv (inVoice : Bool) (q : MusicQueue) (h : pauseInv q) :
    pauseInv (clearCommand inVoice q) := by
  unfold clearCommand
  split
  · exact h
  · split
    · exact h
    · exact h

theorem stopCommand_pauseInv (inVoice : Bool) (q : MusicQueue) (h : pauseInv q) :
    pauseInv (stopCommand inVoice q).queue := by
  unfold stopCommand
  split
  · exact h
  · exact cleanup_pauseInv _ h

theorem playExisting_pauseInv (q : MusicQueue) (r : PlayRequest) (h : pauseInv q) :
    pauseInv (playExisting q r) := by
  cases r with
  | single song => exact h
  | playlist videos =>
    simp only [playExisting]
    split
    · exact h
    · exact h

theorem step_pauseInv (s : Session) (e : Event) (h : pauseInv s.queue) :
    pauseInv (step s e).queue := by
  cases e with
  | play inVoice request =>
    simp only [step]
    split
    · exact playExisting_pauseInv _ _ h
    · exact h
  | finish env =>
    simp only [step]
    split
    · exact idleHandler_pauseInv _ _ h
    · split
      · exact idleShift_pauseInv _ h
      · exact cleanup_pauseInv _ (idleShift_pauseInv _ h)
  | rewind inVoice now =>
    simp only [step]
    split
    · exact rewindCommand_pauseInv _ _ _ h
    · exact h
  | button inVoice customId now =>
    simp only [step]
    split
    · exact handleButtonInteraction_pauseInv _ _ _ _ h
    · exact h
  | playSong song sendEmbed env =>
    simp only [step]
    split
    · exact playSong_pauseInv _ _ _ _ _ h
    · exact h
  | clear inVoice =>
    simp only [step]
    split
    · exact clearCommand_pauseInv _ _ h
    · exact h
  | stop inVoice =>
    simp only [step]
    split
    · exact stopCommand_pauseInv _ _ h
    · exact h

theorem run_pauseInv (events : List Event) (s : Session) (h : pauseInv s.queue) :
    pauseInv (run s events).queue := by
  induction events generalizing s with
  | nil => exact h
  | cons e es ih => exact ih (step s e) (step_pauseInv s e h)

/-- C7: in every state reached from a fresh `MusicQueue` by begin-playback, play/pause
(and the other buttons), enqueue, rewind, clear, stop and finish events, with any clock
readings, `pauseStartTime` is not `null` if and only if `isPaused` is `true`. -/
theorem pause_invariant (registered : Bool) (events : List Event) :
    (run { queue := MusicQueue.fresh, registered := registered } events).queue.pauseStartTime
        ≠ none
      ↔ (run { queue := MusicQueue.fresh, registered := registered } events).queue.isPaused
        = true :=
  run_pauseInv events _ (by simp [pauseInv, MusicQueue.fresh])

/-! ## The rewind decision -/

theorem timeSinceStart_eq_raw (q : MusicQueue) (now : Timestamp) :
    timeSinceStart q now = rawSecondsSinceStart q now := by
  unfold timeSinceStart rawSecondsSinceStart
  cases q.songStartTime with
  | none => rfl
  | some start =>
    simp only [truthy_some, if_true]
    push_cast
    rfl

theorem rewind_previous_branch (q : MusicQueue) (now : Timestamp)
    (hlen : q.songs.length ≠ 0)
    (hc : rawSecondsSinceStart q now ≤ 10 ∧ q.previousSongs ≠ []) :
    ∃ earlier previous, q.previousSongs = earlier ++ [previous]
      ∧ rewindCommand true q now
          = ({ q with songs := previous :: q.songs, previousSongs := earlier },
              Scheduled.playFirst true)
      ∧ handleButtonInteraction true q Button.rewind_btn now
          = ({ q with songs := previous :: q.songs, previousSongs := earlier },
              Scheduled.playFirst false) := by
  obtain ⟨ht, hne⟩ := hc
  have hcond : timeSinceStart q now ≤ 10 ∧ q.previousSongs.length > 0 :=
    ⟨by rw [timeSinceStart_eq_raw]; exact ht, List.length_pos.mpr hne⟩
  refine ⟨q.previousSongs.dropLast, q.previousSongs.getLast hne,
    (List.dropLast_append_getLast hne).symm, ?_, ?_⟩
  · unfold rewindCommand
    simp only [Bool.not_true, Bool.false_eq_true, if_false, dif_neg hlen, dif_pos hcond]
    rfl
  · unfold handleButtonInteraction rewindButton
    simp only [Bool.not_true, Bool.false_eq_true, if_false, dif_neg hlen, dif_pos hcond]
    rfl

theorem rewind_restart_branch (q : MusicQueue) (now : Timestamp) (current : Song)
    (rest : List Song) (hs : q.songs = current :: rest)
    (hnot : ¬ (rawSecondsSinceStart q now ≤ 10 ∧ q.previousSongs ≠ [])) :
    rewindCommand true q now = (q, Scheduled.playCurrent current true)
      ∧ handleButtonInteraction true q Button.rewind_btn now
        = (q, Scheduled.playCurrent current false) := by
  have hlen : q.songs.length ≠ 0 := by simp [hs]
  have hcur : ∀ _hpos : 0 < q.songs.length, q.songs[0] = current := by
    intro _hpos
    simp [hs]
  have hcond : ¬ (timeSinceStart q now ≤ 10 ∧ q.previousSongs.length > 0) := by
    rintro ⟨ht, hp⟩
    exact hnot ⟨by rw [← timeSinceStart_eq_raw]; exact ht, List.length_pos.mp hp⟩
  constructor
  · unfold rewindCommand
    simp only [Bool.not_true, Bool.false_eq_true, if_false, dif_neg hlen, dif_neg hcond]
    rw [hcur]
  · unfold handleButtonInteraction rewindButton
    simp only [Bool.not_true, Bool.false_eq_true, if_false, dif_neg hlen, dif_neg hcond]
    rw [hcur]

/-- C8: on a session with a current song, a rewind at `now`, by the command or by the
button, goes to the previous track exactly when the raw time since the start is at
most 10 seconds and the history is not empty: then `songs` is the last history entry
followed by the old `songs` and the history loses its last entry; otherwise `songs`
and `previousSongs` are unchanged and the song to restart is the old `songs[0]`. -/
theorem rewind_decision (q : MusicQueue) (now : Timestamp) (current : Song)
    (rest : List Song) (hs : q.songs = current :: rest) :
    ((rewindCommand true q now).2 = Scheduled.playFirst true
        ↔ rawSecondsSinceStart q now ≤ 10 ∧ q.previousSongs ≠ [])
      ∧ ((handleButtonInteraction true q Button.rewind_btn now).2 = Scheduled.playFirst false
        ↔ rawSecondsSinceStart q now ≤ 10 ∧ q.previousSongs ≠ [])
      ∧ (rawSecondsSinceStart q now ≤ 10 ∧ q.previousSongs ≠ [] →
        ∃ earlier previous, q.previousSongs = earlier ++ [previous]
          ∧ rewindCommand true q now
              = ({ q with songs := previous :: q.songs, previousSongs := earlier },
                  Scheduled.playFirst true)
          ∧ handleButtonInteraction true q Button.rewind_btn now
              = ({ q with songs := previous :: q.songs, previousSongs := earlier },
                  Scheduled.playFirst false))
      ∧ (¬ (rawSecondsSinceStart q now ≤ 10 ∧ q.previousSongs ≠ []) →
          rewindCommand true q now = (q, Scheduled.playCurrent current true)
            ∧ handleButtonInteraction true q Button.rewind_btn now
              = (q, Scheduled.playCurrent current false)) := by
  have hlen : q.songs.length ≠ 0 := by simp [hs]
  have hyes := rewind_previous_branch q now hlen
  have hno := rewind_restart_branch q now current rest hs
  refine ⟨⟨?_, ?_⟩, ⟨?_, ?_⟩, hyes, hno⟩
  · intro h2
    by_contra hc
    rw [(hno hc).1] at h2
    cases h2
  · intro hc
    obtain ⟨earlier, previous, _, h1, _⟩ := hyes hc
    rw [h1]
  · intro h2
    by_contra hc
    rw [(hno hc).2] at h2
    cases h2
  · intro hc
    obtain ⟨earlier, previous, _, _, h1⟩ := hyes hc
    rw [h1]

theorem rewind_decision_witness :
    ∃ earlier previous, secondSong.previousSongs = earlier ++ [previous]
      ∧ rewindCommand true secondSong { ms := 11000, pos := by decide }
          = ({ secondSong with songs := previous :: secondSong.songs, previousSongs := earlier },
              Scheduled.playFirst true)
      ∧ handleButtonInteraction true secondSong Button.rewind_btn { ms := 11000, pos := by decide }
          = ({ secondSong with songs := previous :: secondSong.songs, previousSongs := earlier },
              Scheduled.playFirst false) :=
  (rewind_decision secondSong { ms := 11000, pos := by decide } songB [] rfl).2.2.1
    ⟨by norm_num [rawSecondsSinceStart, secondSong, startedAt1000], by decide⟩

/-! ## Clear -/

theorem clearCommand_of_two (q : MusicQueue) (current next : Song) (rest : List Song)
    (hs : q.songs = current :: next :: rest) :
    clearCommand true q = { q with songs := [current] } := by
  have hlen : ¬ q.songs.length ≤ 1 := by simp [hs]
  unfold clearCommand
  simp only [Bool.not_true, Bool.false_eq_true, if_false, dif_neg hlen]
  simp [hs]

theorem clearCommand_short (inVoice : Bool) (q : MusicQueue) (h : q.songs.length ≤ 1) :
    clearCommand inVoice q = q := by
  unfold clearCommand
  split
  · rfl
  · rfl

theorem clearCommand_songs_length (inVoice : Bool) (q : MusicQueue) :
    (clearCommand inVoice q).songs.length ≤ 1 ∨ inVoice = false := by
  unfold clearCommand
  cases inVoice with
  | false => exact Or.inr rfl
  | true =>
    left
    simp only [Bool.not_true, Bool.false_eq_true, if_false]
    split
    · next h => exact h
    · simp

/-- C9: the clear command of an invoker in a voice channel leaves `songs` as the old
`songs[0]` alone when the list had at least 2 songs, and leaves the session as it was
when the list had 0 or 1 songs; `previousSongs`, `isPaused` and the timing fields keep
their values in both cases. -/
theorem clear_keeps_current (q : MusicQueue) :
    (∀ current next rest, q.songs = current :: next :: rest →
        (clearCommand true q).songs = [current])
      ∧ (q.songs.length ≤ 1 → (clearCommand true q).songs = q.songs)
      ∧ (clearCommand true q).previousSongs = q.previousSongs
      ∧ (clearCommand true q).isPaused = q.isPaused
      ∧ (clearCommand true q).songStartTime = q.songStartTime
      ∧ (clearCommand true q).pausedTime = q.pausedTime
      ∧ (clearCommand true q).pauseStartTime = q.pauseStartTime := by
  refine ⟨?_, ?_, ?_⟩
  · intro current next rest hs
    rw [clearCommand_of_two q current next rest hs]
  · intro h
    rw [clearCommand_short true q h]
  · unfold clearCommand
    simp only [Bool.not_true, Bool.false_eq_true, if_false]
    split
    · exact ⟨rfl, rfl, rfl, rfl, rfl⟩
    · exact ⟨rfl, rfl, rfl, rfl, rfl⟩

/-- C10: the clear command applied twice in a row leaves the session in the state that
one application leaves it in. -/
theorem clear_idempotent (inVoice : Bool) (q : MusicQueue) :
    clearCommand inVoice (clearCommand inVoice q) = clearCommand inVoice q := by
  cases clearCommand_songs_length inVoice q with
  | inl h => exact clearCommand_short inVoice _ h
  | inr h =>
    subst h
    rfl

/-! ## The registry -/

theorem queueGet_queueSet (queue : Registry) (guildId : String) (value : MusicQueue) :
    queueGet (queueSet queue guildId value) guildId = some value := by
  induction queue with
  | nil => simp [queueSet, queueGet]
  | cons e rest ih =>
    obtain ⟨key, old⟩ := e
    by_cases hk : key = guildId
    · simp [queueSet, queueGet, hk]
    · simp [queueSet, queueGet, hk, ih]

theorem queueGet_queueDelete (queue : Registry) (guildId : String) :
    queueGet (queueDelete queue guildId) guildId = none := by
  induction queue with
  | nil => rfl
  | cons e rest ih =>
    obtain ⟨key, old⟩ := e
    by_cases hk : key = guildId
    · simpa [queueDelete, List.filter_cons, hk] using ih
    · simpa [queueDelete, List.filter_cons, hk, queueGet] using ih

theorem queueDelete_queueSet_of_absent (queue : Registry) (guildId : String)
    (value : MusicQueue) (h : queueGet queue guildId = none) :
    queueDelete (queueSet queue guildId value) guildId = queue := by
  induction queue with
  | nil => simp [queueSet, queueDelete]
  | cons e rest ih =>
    obtain ⟨key, old⟩ := e
    by_cases hk : key = guildId
    · simp [queueGet, hk] at h
    · have hrest : queueGet rest guildId = none := by simpa [queueGet, hk] using h
      have ih1 := ih hrest
      simp only [queueDelete] at ih1
      simp [queueSet, queueDelete, List.filter_cons, hk, ih1]

theorem queueSet_queueSet (queue : Registry) (guildId : String) (a b : MusicQueue) :
    queueSet (queueSet queue guildId a) guildId b = queueSet queue guildId b := by
  induction queue with
  | nil => simp [queueSet]
  | cons e rest ih =>
    obtain ⟨key, old⟩ := e
    by_cases hk : key = guildId
    · simp [queueSet, hk]
    · simp [queueSet, hk, ih]

/-! ## Start failures -/

theorem playSong_some_deleted (env : Nat → Attempt) :
    ∀ (n : Nat) (q : MusicQueue) (song : Song) (b : Bool) (i : Nat),
      q.songs.length = n → (playSong env q (some song) b i).deleted = false := by
  intro n
  induction n using Nat.strong_induction_on with
  | _ n ih =>
    intro q song b i hn
    rw [playSong]
    dsimp only
    split
    · split
      · next hpos =>
        have hs := tryStart_songs (env i) q b
        simp only [hs, List.length_tail] at hpos
        cases htail : q.songs.tail with
        | nil =>
          have hl := congrArg List.length htail
          simp only [List.length_tail, List.length_nil] at hl
          omega
        | cons next rest =>
          simp only [hs, htail, List.head?_cons]
          have hl := congrArg List.length htail
          simp only [List.length_tail] at hl
          exact ih (q.songs.length - 1) (by omega) _ next false (i + 1) hl.symm
      · rfl
    · rfl

/-- C11: at a registered session with the single song A whose stream cannot be started,
`playSong` removes A and returns: the guild is still registered, with an empty `songs`,
where the teardown of an empty-queue finish would have deregistered it. -/
theorem playSong_failure_stays_registered :
    queueGet (playSongIn alwaysThrows oneSongRegistry "g1" (some songA) false) "g1"
        = some { MusicQueue.fresh with songs := [] }
      ∧ queueGet (idleEvent alwaysThrows oneSongRegistry "g1") "g1" = none := by
  constructor
  · simp [playSongIn, oneSongRegistry, queueGet, queueSet, playSong, tryStart, alwaysThrows]
  · simp [idleEvent, idleHandler, idleShift, oneSongRegistry, queueGet, queueDelete,
      MusicQueue.fresh]

/-! ## Connect failures -/

/-- C12: a play request of an invoker in a voice channel, on a guild with no session,
for which joining the voice channel throws, leaves the registry as it was before the
request, so without an entry for the guild. -/
theorem connect_failure_rollback (env : Nat → Attempt) (queue : Registry) (guildId : String)
    (request : PlayRequest) (h : queueGet queue guildId = none) :
    (playCommand env queue guildId true (some request) true).queue = queue
      ∧ queueGet (playCommand env queue guildId true (some request) true).queue guildId = none
      ∧ (request.tracks ≠ [] →
          (playCommand env queue guildId true (some request) true).reply = Reply.joinFailed) := by
  have hq : (playCommand env queue guildId true (some request) true).queue = queue := by
    unfold playCommand
    simp only [Bool.not_true, Bool.false_eq_true, if_false, h, if_true]
    split
    · rfl
    · rw [queueSet_queueSet, queueDelete_queueSet_of_absent queue guildId _ h]
  refine ⟨hq, by rw [hq]; exact h, ?_⟩
  intro hne
  have hlen : ¬ request.tracks.length = 0 := by
    intro h0
    exact hne (List.length_eq_zero.mp h0)
  unfold playCommand
  simp [h, hlen]

theorem connect_failure_rollback_witness :
    (playCommand startsAt1000 oneSongRegistry "g2" true (some (PlayRequest.single songB))
        true).queue = oneSongRegistry
      ∧ queueGet (playCommand startsAt1000 oneSongRegistry "g2" true
          (some (PlayRequest.single songB)) true).queue "g2" = none
      ∧ (PlayRequest.tracks (PlayRequest.single songB) ≠ [] →
          (playCommand startsAt1000 oneSongRegistry "g2" true
            (some (PlayRequest.single songB)) true).reply = Reply.joinFailed) :=
  connect_failure_rollback startsAt1000 oneSongRegistry "g2" (PlayRequest.single songB)
    (by decide)

/-! ## The finish event on the registry -/

theorem playSong_some_of_started (env : Nat → Attempt) (q : MusicQueue) (song : Song)
    (b : Bool) (i : Nat) (h : (tryStart (env i) q b).2 = false) :
    playSong env q (some song) b i = { queue := (tryStart (env i) q b).1, deleted := false } := by
  rw [playSong]
  simp [h]

theorem playSong_songs_suffix (env : Nat → Attempt) (q : MusicQueue) (song : Option Song)
    (b : Bool) (i : Nat) : (playSong env q song b i).queue.songs <:+ q.songs := by
  refine playSong_preserves (fun q1 => q1.songs <:+ q.songs) ?_ ?_ ?_ env
    q.songs.length q song b i rfl (List.suffix_refl _)
  · intro a q1 b1 h
    rw [tryStart_songs]
    exact h
  · intro q1 h
    exact List.IsSuffix.trans (List.tail_suffix _) h
  · intro q1 h
    rw [(cleanup_frame q1).1]
    exact h

theorem idleShift_of_cons (q : MusicQueue) (first : Song) (rest : List Song)
    (hs : q.songs = first :: rest) :
    (idleShift q).songs = rest
      ∧ (idleShift q).previousSongs.getLast? = some first := by
  unfold idleShift
  rw [hs]
  dsimp only
  refine ⟨rfl, ?_⟩
  split
  · next hgt =>
    cases hp : q.previousSongs with
    | nil => simp [hp] at hgt
    | cons p ps =>
      have ht : (p :: ps ++ [first]).tail = ps ++ [first] := rfl
      rw [ht]
      exact List.getLast?_concat ps
  · exact List.getLast?_concat _

theorem idleHandler_deleted (env : Nat → Attempt) (q : MusicQueue) (first : Song)
    (rest : List Song) (hs : q.songs = first :: rest) :
    (idleHandler env q).deleted = true ↔ rest = [] := by
  have h1 := (idleShift_of_cons q first rest hs).1
  unfold idleHandler
  dsimp only
  rw [h1]
  cases rest with
  | nil => simp
  | cons next more =>
    simp only [List.length_cons, gt_iff_lt, Nat.zero_lt_succ, if_true, List.head?_cons]
    rw [playSong_some_deleted env _ _ next false 0 rfl]
    simp

theorem idleHandler_songs_suffix (env : Nat → Attempt) (q : MusicQueue) (first : Song)
    (rest : List Song) (hs : q.songs = first :: rest) :
    (idleHandler env q).queue.songs <:+ rest := by
  have hshift := idleShift_of_cons q first rest hs
  unfold idleHandler
  dsimp only
  split
  · rw [← hshift.1]
    exact playSong_songs_suffix _ _ _ _ _
  · rw [(cleanup_frame _).1, hshift.1]

theorem idleHandler_of_started (env : Nat → Attempt) (q : MusicQueue) (first next : Song)
    (more : List Song) (hs : q.songs = first :: next :: more)
    (hok : (env 0).streamThrows = false) :
    idleHandler env q
      = { queue := beginFields (idleShift q) (env 0).now, deleted := false } := by
  have hshift := idleShift_of_cons q first (next :: more) hs
  unfold idleHandler
  dsimp only
  rw [hshift.1]
  simp only [List.length_cons, gt_iff_lt, Nat.zero_lt_succ, if_true, List.head?_cons]
  rw [playSong_some_of_started env _ next false 0 (by simp [tryStart, hok])]
  simp [tryStart, hok]

/-- C13, as the code has it: on a registered session with `songs = first :: rest`, a
finish event leaves `first` as the last entry of `previousSongs` and leaves as `songs`
a suffix of `rest`; with no song left the guild is deregistered; and when the start of
the next song does not throw, `songs` is `rest`, the guild is still registered exactly
when the old list had at least 2 songs, and then the new `songs[0]` begins playback. -/
theorem finish_transition (env : Nat → Attempt) (queue : Registry) (guildId : String)
    (q : MusicQueue) (first : Song) (rest : List Song)
    (hq : queueGet queue guildId = some q) (hs : q.songs = first :: rest) :
    (idleHandler env q).queue.previousSongs.getLast? = some first
      ∧ (idleHandler env q).queue.songs <:+ rest
      ∧ (rest = [] → queueGet (idleEvent env queue guildId) guildId = none)
      ∧ ((env 0).streamThrows = false →
          (idleHandler env q).queue.songs = rest
            ∧ ((queueGet (idleEvent env queue guildId) guildId).isSome = true
                ↔ 2 ≤ q.songs.length)
            ∧ (2 ≤ q.songs.length →
                queueGet (idleEvent env queue guildId) guildId = some (idleHandler env q).queue
                  ∧ (idleHandler env q).queue.isPlaying = true
                  ∧ (idleHandler env q).queue.isPaused = false
                  ∧ (idleHandler env q).queue.songStartTime = some (env 0).now)) := by
  have hshift := idleShift_of_cons q first rest hs
  have hdel := idleHandler_deleted env q first rest hs
  have hsuf := idleHandler_songs_suffix env q first rest hs
  have hgone : rest = [] → queueGet (idleEvent env queue guildId) guildId = none := by
    intro hnil
    unfold idleEvent
    rw [hq]
    dsimp only
    rw [if_pos (hdel.mpr hnil), queueGet_queueDelete]
  refine ⟨?_, hsuf, hgone, ?_⟩
  · rw [idleHandler_previousSongs]
    exact hshift.2
  · intro hok
    cases rest with
    | nil =>
      refine ⟨List.suffix_nil.mp hsuf, ?_, ?_⟩
      · rw [hgone rfl, hs]
        simp
      · intro h2
        rw [hs] at h2
        simp at h2
    | cons next more =>
      have hstart := idleHandler_of_started env q first next more hs hok
      have hreg : queueGet (idleEvent env queue guildId) guildId
          = some (idleHandler env q).queue := by
        unfold idleEvent
        rw [hq]
        dsimp only
        rw [hstart]
        simp only [Bool.false_eq_true, if_false]
        exact queueGet_queueSet _ _ _
      refine ⟨?_, ?_, ?_⟩
      · rw [hstart]
        exact hshift.1
      · rw [hreg, hs]
        simp
      · intro _
        refine ⟨hreg, ?_⟩
        rw [hstart]
        exact ⟨rfl, rfl, rfl⟩

theorem finish_transition_witness :
    (idleHandler startsAt1000 threeSongs).queue.previousSongs.getLast? = some songA
      ∧ (idleHandler startsAt1000 threeSongs).queue.songs = [songB, songA]
      ∧ queueGet (idleEvent startsAt1000 [("g1", threeSongs)] "g1") "g1"
          = some (idleHandler startsAt1000 threeSongs).queue
      ∧ (idleHandler startsAt1000 threeSongs).queue.isPlaying = true :=
  ⟨(finish_transition startsAt1000 [("g1", threeSongs)] "g1" threeSongs songA [songB, songA]
      (by simp [queueGet]) rfl).1,
    ((finish_transition startsAt1000 [("g1", threeSongs)] "g1" threeSongs songA [songB, songA]
      (by simp [queueGet]) rfl).2.2.2 rfl).1,
    (((finish_transition startsAt1000 [("g1", threeSongs)] "g1" threeSongs songA [songB, songA]
      (by simp [queueGet]) rfl).2.2.2 rfl).2.2 (by decide)).1,
    (((finish_transition startsAt1000 [("g1", threeSongs)] "g1" threeSongs songA [songB, songA]
      (by simp [queueGet]) rfl).2.2.2 rfl).2.2 (by decide)).2.1⟩

/-- C13, as the claim states it, fails: with songs A, B, A and a start of B that
throws, the finish of A leaves `songs = [A]`, not the old list without its first
element. -/
theorem finish_drops_failed_song :
    (idleHandler throwsOnce threeSongs).queue.songs = [songA]
      ∧ (idleHandler throwsOnce threeSongs).queue.songs ≠ threeSongs.songs.tail := by
  have h : (idleHandler throwsOnce threeSongs).queue.songs = [songA] := by
    simp [idleHandler, idleShift, threeSongs, startedAt1000, MusicQueue.fresh, playSong,
      tryStart, throwsOnce, beginFields]
  refine ⟨h, ?_⟩
  rw [h]
  decide

/-! ## Commands of an invoker outside a voice channel -/

/-- C14: a play, skip, rewind, clear or stop command, or a press of a control button, of
an invoker who is not in a voice channel is answered with a rejection and leaves the
registry, so every field of every session, as it was; nothing is deferred. -/
theorem not_in_voice_rejected (queue : Registry) (guildId : String) (command : Command)
    (customId : Button) (now : Timestamp) :
    (handleSlashCommand queue guildId false command).queue = queue
      ∧ (handleSlashCommand queue guildId false command).reply = Reply.needVoice
      ∧ (handleSlashCommand queue guildId false command).scheduled = Scheduled.nothing
      ∧ (handleButton queue guildId false customId now).queue = queue
      ∧ ((handleButton queue guildId false customId now).reply = Reply.needVoice
          ∨ (handleButton queue guildId false customId now).reply = Reply.noSong)
      ∧ (handleButton queue guildId false customId now).scheduled = Scheduled.nothing := by
  have hcmd : handleSlashCommand queue guildId false command
      = { queue := queue, reply := Reply.needVoice, scheduled := Scheduled.nothing } := by
    cases command with
    | play request connectThrows env => simp [handleSlashCommand, playCommand]
    | skip => simp [handleSlashCommand]
    | rewind t => simp [handleSlashCommand]
    | clear => simp [handleSlashCommand]
    | stop => simp [handleSlashCommand]
  rw [hcmd]
  refine ⟨rfl, rfl, rfl, ?_⟩
  unfold handleButton
  cases queueGet queue guildId with
  | none => exact ⟨rfl, Or.inr rfl, rfl⟩
  | some guildQueue =>
    dsimp only
    split
    · exact ⟨rfl, Or.inr rfl, rfl⟩
    · simp

/-! ## Automated advances and the tracked messages -/

theorem tryStart_silent_view (a : Attempt) (q : MusicQueue) :
    (tryStart a q false).1.nowPlayingMessages = q.nowPlayingMessages
      ∧ (tryStart a q false).1.updateInterval = q.updateInterval := by
  unfold tryStart
  split
  · exact ⟨rfl, rfl⟩
  · exact ⟨rfl, rfl⟩

theorem playSong_silent_view (env : Nat → Attempt) :
    ∀ (n : Nat) (q : MusicQueue) (song : Song) (i : Nat), q.songs.length = n →
      (playSong env q (some song) false i).queue.nowPlayingMessages = q.nowPlayingMessages
        ∧ (playSong env q (some song) false i).queue.updateInterval = q.updateInterval := by
  intro n
  induction n using Nat.strong_induction_on with
  | _ n ih =>
    intro q song i hn
    have hv := tryStart_silent_view (env i) q
    rw [playSong]
    dsimp only
    split
    · split
      · next hpos =>
        have hs := tryStart_songs (env i) q false
        simp only [hs, List.length_tail] at hpos
        cases htail : q.songs.tail with
        | nil =>
          have hl := congrArg List.length htail
          simp only [List.length_tail, List.length_nil] at hl
          omega
        | cons next rest =>
          simp only [hs, htail, List.head?_cons]
          have hl := congrArg List.length htail
          simp only [List.length_tail] at hl
          have h := ih (q.songs.length - 1) (by omega)
            { (tryStart (env i) q false).1 with songs := next :: rest } next (i + 1) hl.symm
          exact ⟨h.1.trans hv.1, h.2.trans hv.2⟩
      · exact hv
    · exact hv

/-- C15: a run of `playSong` on a song with `sendEmbed = false`, as the finish event and
the recovery from a start failure make it, leaves `nowPlayingMessages` and
`updateInterval` as they were, and so does a finish event after which a song remains;
a run with `sendEmbed = true` whose start and send succeed tracks the sent message and
has the timer stored. -/
theorem automated_advance_keeps_surfaces (env : Nat → Attempt) (q : MusicQueue) (song : Song)
    (i : Nat) (messageId channelId : String) :
    (playSong env q (some song) false i).queue.nowPlayingMessages = q.nowPlayingMessages
      ∧ (playSong env q (some song) false i).queue.updateInterval = q.updateInterval
      ∧ ((idleShift q).songs ≠ [] →
          (idleHandler env q).queue.nowPlayingMessages = q.nowPlayingMessages
            ∧ (idleHandler env q).queue.updateInterval = q.updateInterval)
      ∧ ((env i).streamThrows = false → (env i).sent = some (messageId, channelId) →
          (playSong env q (some song) true i).queue.nowPlayingMessages
              = mapSet q.nowPlayingMessages messageId
                  { channelId := channelId, messageId := messageId, userId := "auto" }
            ∧ (playSong env q (some song) true i).queue.updateInterval = true) := by
  have h1 := playSong_silent_view env q.songs.length q song i rfl
  refine ⟨h1.1, h1.2, ?_, ?_⟩
  · intro hne
    have hshift : (idleShift q).nowPlayingMessages = q.nowPlayingMessages
        ∧ (idleShift q).updateInterval = q.updateInterval := by
      unfold idleShift
      split <;> exact ⟨rfl, rfl⟩
    unfold idleHandler
    dsimp only
    cases hsongs : (idleShift q).songs with
    | nil => exact absurd hsongs hne
    | cons next rest =>
      simp only [List.length_cons, gt_iff_lt, Nat.zero_lt_succ, if_true, List.head?_cons]
      have h2 := playSong_silent_view env (idleShift q).songs.length (idleShift q) next 0 rfl
      exact ⟨h2.1.trans hshift.1, h2.2.trans hshift.2⟩
  · intro hok hsent
    have ht : tryStart (env i) q true
        = (trackAuto (beginFields q (env i).now) messageId channelId, false) := by
      simp [tryStart, hok, hsent]
    rw [playSong_some_of_started env q song true i (by rw [ht])]
    rw [ht]
    simp only [trackAuto, startNowPlayingUpdates, beginFields]
    split <;> simp_all

/-! ## The refresh of the tracked messages -/

theorem foldl_mapDelete (keys : List String) (m : List (String × MessageData)) :
    keys.foldl mapDelete m = m.filter (fun e => !keys.contains e.1) := by
  induction keys generalizing m with
  | nil => simp
  | cons k ks ih =>
    rw [List.foldl_cons, ih, mapDelete, List.filter_filter]
    apply List.filter_congr
    intro e _
    by_cases hk : e.1 = k
    · simp [hk]
    · have hk2 : ¬ k = e.1 := fun h => hk h.symm
      simp [hk, hk2, List.contains_cons]

theorem refreshLoop_remove {P : Type} (payload : P) (outcome : String → UpdateOutcome)
    (m : List (String × MessageData)) (key : String) :
    key ∈ (refreshLoop payload outcome m).1
      ↔ (∃ e ∈ m, e.1 = key) ∧ outcome key ≠ UpdateOutcome.edited := by
  induction m with
  | nil => simp [refreshLoop]
  | cons e rest ih =>
    obtain ⟨messageId, data⟩ := e
    simp only [refreshLoop]
    cases ho : outcome messageId with
    | edited =>
      simp only [ih]
      constructor
      · rintro ⟨⟨e, he, hk⟩, hne⟩
        exact ⟨⟨e, List.mem_cons_of_mem _ he, hk⟩, hne⟩
      · rintro ⟨⟨e, he, hk⟩, hne⟩
        refine ⟨?_, hne⟩
        cases List.mem_cons.mp he with
        | inl h1 =>
          subst h1
          simp only at hk
          rw [← hk] at hne
          exact absurd ho hne
        | inr h1 => exact ⟨e, h1, hk⟩
    | noChannel | noMessage | throws =>
      simp only [List.mem_cons, ih]
      constructor
      · rintro (h1 | ⟨⟨e, he, hk⟩, hne⟩)
        · subst h1
          refine ⟨⟨(key, data), Or.inl rfl, rfl⟩, ?_⟩
          rw [ho]
          simp
        · exact ⟨⟨e, Or.inr he, hk⟩, hne⟩
      · rintro ⟨⟨e, he | he, hk⟩, hne⟩
        · subst he
          exact Or.inl hk.symm
        · exact Or.inr ⟨⟨e, he, hk⟩, hne⟩

theorem refreshLoop_edits {P : Type} (payload : P) (outcome : String → UpdateOutcome)
    (m : List (String × MessageData)) :
    (refreshLoop payload outcome m).2
      = (m.filter (fun e => decide (outcome e.1 = UpdateOutcome.edited))).map
          (fun e => (e.1, payload)) := by
  induction m with
  | nil => rfl
  | cons e rest ih =>
    obtain ⟨messageId, data⟩ := e
    simp only [refreshLoop]
    cases ho : outcome messageId <;> simp [List.filter_cons, ho, ih]

theorem refresh_survivors {P : Type} (payload : P) (outcome : String → UpdateOutcome)
    (m : List (String × MessageData)) :
    (refreshLoop payload outcome m).1.foldl mapDelete m
      = m.filter (fun e => decide (outcome e.1 = UpdateOutcome.edited)) := by
  rw [foldl_mapDelete]
  apply List.filter_congr
  intro e he
  have h := refreshLoop_remove payload outcome m e.1
  by_cases ho : outcome e.1 = UpdateOutcome.edited
  · have hn : e.1 ∉ (refreshLoop payload outcome m).1 := by
      rw [h]
      rintro ⟨_, hne⟩
      exact hne ho
    simp [ho, hn]
  · have hy : e.1 ∈ (refreshLoop payload outcome m).1 :=
      h.mpr ⟨⟨e, he, rfl⟩, ho⟩
    simp [ho, hy]

/-- C16: on a session with a current song, whatever happens to the update of each
tracked message, after `updateNowPlayingMessages` the tracked messages are those of
before whose update succeeded, each of them was sent the one payload rendered from the
state at the start, and when none is left `updateInterval` is `null`; when some are
left the timer is as it was. -/
theorem refresh_prunes {P : Type} (createEmbed : MusicQueue → P)
    (outcome : String → UpdateOutcome) (q : MusicQueue) (hs : q.songs ≠ []) :
    (updateNowPlayingMessages createEmbed outcome q).1.nowPlayingMessages
        = q.nowPlayingMessages.filter (fun e => decide (outcome e.1 = UpdateOutcome.edited))
      ∧ (updateNowPlayingMessages createEmbed outcome q).2
        = (q.nowPlayingMessages.filter
            (fun e => decide (outcome e.1 = UpdateOutcome.edited))).map
              (fun e => (e.1, createEmbed q))
      ∧ (q.nowPlayingMessages.filter
            (fun e => decide (outcome e.1 = UpdateOutcome.edited)) = [] →
          (updateNowPlayingMessages createEmbed outcome q).1.updateInterval = false)
      ∧ (q.nowPlayingMessages.filter
            (fun e => decide (outcome e.1 = UpdateOutcome.edited)) ≠ [] →
          (updateNowPlayingMessages createEmbed outcome q).1.updateInterval
            = q.updateInterval) := by
  have hlen : ¬ q.songs.length = 0 := fun h => hs (List.length_eq_zero.mp h)
  have hsurv := refresh_survivors (createEmbed q) outcome q.nowPlayingMessages
  have hmsgs : (if (refreshLoop (createEmbed q) outcome q.nowPlayingMessages).1.length > 0 then
        { q with nowPlayingMessages :=
            ((refreshLoop (createEmbed q) outcome q.nowPlayingMessages).1.foldl mapDelete
              q.nowPlayingMessages) }
      else q)
      = { q with nowPlayingMessages :=
            (q.nowPlayingMessages.filter
              (fun e => decide (outcome e.1 = UpdateOutcome.edited))) } := by
    split
    · rw [hsurv]
    · next hzero =>
      have hnil : (refreshLoop (createEmbed q) outcome q.nowPlayingMessages).1 = [] :=
        List.length_eq_zero.mp (by omega)
      rw [hnil] at hsurv
      simp only [List.foldl_nil] at hsurv
      rw [← hsurv]
  unfold updateNowPlayingMessages
  rw [if_neg hlen]
  dsimp only
  rw [hmsgs]
  refine ⟨?_, ?_, ?_, ?_⟩
  · split <;> rfl
  · exact refreshLoop_edits _ _ _
  · intro hnone
    rw [if_pos (by simp [hnone])]
  · intro hsome
    rw [if_neg (by simpa using hsome)]

theorem refresh_prunes_witness :
    (updateNowPlayingMessages (fun q => q.songs.length)
          (fun _ => UpdateOutcome.throws) twoTracked).1.nowPlayingMessages
        = twoTracked.nowPlayingMessages.filter
            (fun e => decide ((fun _ => UpdateOutcome.throws) e.1 = UpdateOutcome.edited))
      ∧ (updateNowPlayingMessages (fun q => q.songs.length)
          (fun _ => UpdateOutcome.throws) twoTracked).1.updateInterval = false :=
  ⟨(refresh_prunes (fun q => q.songs.length) (fun _ => UpdateOutcome.throws) twoTracked
      (by decide)).1,
    (refresh_prunes (fun q => q.songs.length) (fun _ => UpdateOutcome.throws) twoTracked
      (by decide)).2.2.1 (by decide)⟩

/-! ## Teardown of the tracked messages -/

theorem cleanup_view_state (outcome : String → FetchOutcome) (q : MusicQueue) :
    (cleanupWithOutcomes outcome q).1 = cleanupNowPlayingMessages q
      ∧ (cleanupNowPlayingMessages q).nowPlayingMessages = []
      ∧ ((cleanupNowPlayingMessages q).updateInterval = false
          ↔ (q.nowPlayingMessages ≠ [] ∨ q.updateInterval = false)) := by
  unfold cleanupWithOutcomes cleanupNowPlayingMessages
  cases hm : q.nowPlayingMessages with
  | nil => simp [hm]
  | cons e rest =>
    cases hu : q.updateInterval <;> simp [hu]

theorem mapSet_ne_nil (m : List (String × MessageData)) (key : String) (value : MessageData) :
    mapSet m key value ≠ [] := by
  unfold mapSet
  split
  · next hany =>
    cases m with
    | nil => simp at hany
    | cons e rest => simp
  · simp

theorem tryStart_viewInv (a : Attempt) (q : MusicQueue) (b : Bool) (h : viewInv q) :
    viewInv (tryStart a q b).1 := by
  unfold tryStart
  split
  · exact h
  · dsimp only
    split
    · split
      · exact h
      · intro hnil
        simp only [trackAuto, startNowPlayingUpdates] at hnil
        split at hnil <;> exact absurd hnil (mapSet_ne_nil _ _ _)
    · exact h

theorem cleanup_viewInv (q : MusicQueue) (h : viewInv q) :
    viewInv (cleanupNowPlayingMessages q) := by
  intro _
  have hc := (cleanup_view_state (fun _ => FetchOutcome.found) q).2.2
  rw [hc]
  by_cases hm : q.nowPlayingMessages = []
  · exact Or.inr (h hm)
  · exact Or.inl hm

theorem playSong_viewInv (env : Nat → Attempt) (q : MusicQueue) (song : Option Song)
    (b : Bool) (i : Nat) (h : viewInv q) : viewInv (playSong env q song b i).queue :=
  playSong_preserves viewInv tryStart_viewInv (fun _ h1 => h1) cleanup_viewInv env
    q.songs.length q song b i rfl h

theorem idleShift_viewInv (q : MusicQueue) (h : viewInv q) : viewInv (idleShift q) := by
  unfold idleShift
  split
  · exact h
  · exact h

theorem idleHandler_viewInv (env : Nat → Attempt) (q : MusicQueue) (h : viewInv q) :
    viewInv (idleHandler env q).queue := by
  unfold idleHandler
  dsimp only
  split
  · exact playSong_viewInv _ _ _ _ _ (idleShift_viewInv q h)
  · exact cleanup_viewInv _ (idleShift_viewInv q h)

theorem playpause_viewInv (q : MusicQueue) (now : Timestamp) (h : viewInv q) :
    viewInv (playpause q now) := by
  unfold playpause
  split
  · dsimp only
    split
    · split
      · exact h
      · exact h
    · exact h
  · exact h

theorem rewindCommand_viewInv (inVoice : Bool) (q : MusicQueue) (now : Timestamp)
    (h : viewInv q) : viewInv (rewindCommand inVoice q now).1 := by
  unfold rewindCommand
  split
  · exact h
  · split
    · exact h
    · split
      · exact h
      · exact h

theorem handleButtonInteraction_viewInv (inVoice : Bool) (q : MusicQueue)
    (customId : Button) (now : Timestamp) (h : viewInv q) :
    viewInv (handleButtonInteraction inVoice q customId now).1 := by
  unfold handleButtonInteraction
  split
  · exact h
  · split
    · exact h
    · cases customId with
      | playpause_btn => exact playpause_viewInv q now h
      | skip_btn => exact h
      | rewind_btn =>
        dsimp only
        unfold rewindButton
        split
        · exact h
        · exact h
      | view_toggle_btn => exact h

theorem clearCommand_viewInv (inVoice : Bool) (q : MusicQueue) (h : viewInv q) :
    viewInv (clearCommand inVoice q) := by
  unfold clearCommand
  split
  · exact h
  · split
    · exact h
    · exact h

theorem stopCommand_viewInv (inVoice : Bool) (q : MusicQueue) (h : viewInv q) :
    viewInv (stopCommand inVoice q).queue := by
  unfold stopCommand
  split
  · exact h
  · exact cleanup_viewInv _ h

theorem playExisting_viewInv (q : MusicQueue) (r : PlayRequest) (h : viewInv q) :
    viewInv (playExisting q r) := by
  cases r with
  | single song => exact h
  | playlist videos =>
    simp only [playExisting]
    split
    · exact h
    · exact h

theorem step_viewInv (s : Session) (e : Event) (h : viewInv s.queue) :
    viewInv (step s e).queue := by
  cases e with
  | play inVoice request =>
    simp only [step]
    split
    · exact playExisting_viewInv _ _ h
    · exact h
  | finish env =>
    simp only [step]
    split
    · exact idleHandler_viewInv _ _ h
    · split
      · exact idleShift_viewInv _ h
      · exact cleanup_viewInv _ (idleShift_viewInv _ h)
  | rewind inVoice now =>
    simp only [step]
    split
    · exact rewindCommand_viewInv _ _ _ h
    · exact h
  | button inVoice customId now =>
    simp only [step]
    split
    · exact handleButtonInteraction_viewInv _ _ _ _ h
    · exact h
  | playSong song sendEmbed env =>
    simp only [step]
    split
    · exact playSong_viewInv _ _ _ _ _ h
    · exact h
  | clear inVoice =>
    simp only [step]
    split
    · exact clearCommand_viewInv _ _ h
    · exact h
  | stop inVoice =>
    simp only [step]
    split
    · exact stopCommand_viewInv _ _ h
    · exact h

theorem nowplayingCommand_viewInv (q : MusicQueue) (response : Option String)
    (channelId userId : String) (h : viewInv q) :
    viewInv (nowplayingCommand q response channelId userId) := by
  unfold nowplayingCommand
  split
  · exact h
  · split
    · exact h
    · intro hnil
      simp only [startNowPlayingUpdates] at hnil
      split at hnil <;> exact absurd hnil (mapSet_ne_nil _ _ _)

theorem stopTimer_viewInv (q : MusicQueue) :
    viewInv (if q.nowPlayingMessages.length = 0 then { q with updateInterval := false }
      else q) := by
  by_cases h : q.nowPlayingMessages.length = 0
  · rw [if_pos h]
    intro _
    rfl
  · rw [if_neg h]
    intro hnil
    exact absurd (by rw [hnil]; rfl) h

theorem updateNowPlayingMessages_viewInv {P : Type} (createEmbed : MusicQueue → P)
    (outcome : String → UpdateOutcome) (q : MusicQueue) :
    viewInv (updateNowPlayingMessages createEmbed outcome q).1 := by
  unfold updateNowPlayingMessages
  split
  · intro _
    dsimp only
    split
    · rfl
    · next hu => simpa using hu
  · exact stopTimer_viewInv _

theorem stepView_viewInv (s : Session) (e : ViewEvent) (h : viewInv s.queue) :
    viewInv (stepView s e).queue := by
  cases e with
  | session e => exact step_viewInv s e h
  | nowplaying response channelId userId =>
    simp only [stepView]
    split
    · exact nowplayingCommand_viewInv _ _ _ _ h
    · exact h
  | refresh outcome =>
    simp only [stepView]
    split
    · exact updateNowPlayingMessages_viewInv _ _ _
    · exact h

theorem runView_viewInv (events : List ViewEvent) (s : Session) (h : viewInv s.queue) :
    viewInv (runView s events).queue := by
  induction events generalizing s with
  | nil => exact h
  | cons e es ih => exact ih (stepView s e) (stepView_viewInv s e h)

/-- C17: in every state that a session reaches from a fresh `MusicQueue`, by the events
of `Event`, nowplaying commands and ticks of the refresh timer, whatever messages are
tracked and whether the timer is stored, after `cleanupNowPlayingMessages` no message is
tracked and `updateInterval` is `null`, whatever fetching and deleting the messages
did. -/
theorem teardown_clears_view (registered : Bool) (events : List ViewEvent)
    (outcome : String → FetchOutcome) :
    (cleanupWithOutcomes outcome
        (runView { queue := MusicQueue.fresh, registered := registered } events).queue).1
        = cleanupNowPlayingMessages
            (runView { queue := MusicQueue.fresh, registered := registered } events).queue
      ∧ (cleanupNowPlayingMessages
          (runView { queue := MusicQueue.fresh, registered := registered }
            events).queue).nowPlayingMessages = []
      ∧ (cleanupNowPlayingMessages
          (runView { queue := MusicQueue.fresh, registered := registered }
            events).queue).updateInterval = false := by
  have hinv : viewInv
      (runView { queue := MusicQueue.fresh, registered := registered } events).queue :=
    runView_viewInv events _ (by simp [viewInv, MusicQueue.fresh])
  have hc := cleanup_view_state outcome
    (runView { queue := MusicQueue.fresh, registered := registered } events).queue
  refine ⟨hc.1, hc.2.1, ?_⟩
  rw [hc.2.2]
  by_cases hm : (runView { queue := MusicQueue.fresh, registered := registered }
      events).queue.nowPlayingMessages = []
  · exact Or.inr (hinv hm)
  · exact Or.inl hm

/-! ## The progress bar -/

theorem percentage_bounds (current total : Int) (h : 0 ≤ current) :
    0 ≤ percentage current total ∧ percentage current total ≤ 1 := by
  unfold percentage
  split
  · next ht =>
    have hc : (0 : ℚ) ≤ (current : ℚ) := by exact_mod_cast h
    have htq : (0 : ℚ) < (total : ℚ) := by exact_mod_cast ht
    exact ⟨le_min (div_nonneg hc (le_of_lt htq)) zero_le_one, min_le_right _ _⟩
  · exact ⟨le_refl _, zero_le_one⟩

theorem filledLength_bounds (current total : Int) (h : 0 ≤ current) :
    0 ≤ filledLength current total ∧ filledLength current total ≤ 15 := by
  have hp := percentage_bounds current total h
  unfold filledLength
  constructor
  · rw [Int.floor_nonneg]
    linarith [hp.1]
  · have hlt : ⌊(15 : ℚ) * percentage current total + 1 / 2⌋ < 16 := by
      rw [Int.floor_lt]
      push_cast
      linarith [hp.2]
    omega

theorem createProgressBar_eq (current total : Int) (h : 0 ≤ current) :
    createProgressBar current total
      = some (String.mk (List.replicate (filledLength current total).toNat barChar
          ++ sliderChar :: List.replicate (15 - (filledLength current total).toNat) barChar)) := by
  have hb := filledLength_bounds current total h
  have h1 : ¬ filledLength current total < 0 := by omega
  have h2 : ¬ (15 : Int) - filledLength current total < 0 := by omega
  have h3 : ((15 : Int) - filledLength current total).toNat
      = 15 - (filledLength current total).toNat := by omega
  unfold createProgressBar
  simp only [jsRepeat, if_neg h1, if_neg h2, h3]
  split
  · next h0 => simp [h0]
  · split
    · next h15 => simp [h15]
    · rfl

/-- C18: for an elapsed time `current ≥ 0` and any duration `total`, `createProgressBar`
does not throw: the filled count is between 0 and 15, it is
`round(15 * min(current / total, 1))` when `total > 0` and `0` otherwise, and the string
is the filled bars, the slider, then the remaining bars, with 15 bars and 1 slider in
all. -/
theorem progress_bar_well_formed (current total : Int) (h : 0 ≤ current) :
    (0 ≤ filledLength current total ∧ filledLength current total ≤ 15
        ∧ 0 ≤ 15 - filledLength current total ∧ 15 - filledLength current total ≤ 15)
      ∧ filledLength current total
        = (if total > 0 then round ((15 : ℚ) * min ((current : ℚ) / (total : ℚ)) 1) else 0)
      ∧ ∃ bar : String, createProgressBar current total = some bar
          ∧ bar.data = List.replicate (filledLength current total).toNat barChar
              ++ sliderChar :: List.replicate (15 - (filledLength current total).toNat) barChar
          ∧ bar.data.count barChar = 15
          ∧ bar.data.count sliderChar = 1
          ∧ bar.data.length = 16 := by
  have hb := filledLength_bounds current total h
  have hne : (sliderChar == barChar) = false := by decide
  have hne2 : (barChar == sliderChar) = false := by decide
  refine ⟨⟨hb.1, hb.2, by omega, by omega⟩, ?_, _, createProgressBar_eq current total h, rfl,
    ?_, ?_, ?_⟩
  · unfold filledLength percentage
    split
    · rw [round_eq]
    · norm_num
  · simp only [List.count_append, List.count_cons, List.count_replicate_self, hne,
      Bool.false_eq_true, if_false]
    omega
  · simp only [List.count_append, List.count_cons, List.count_replicate, hne2,
      Bool.false_eq_true, if_false, beq_self_eq_true, if_true]
  · simp only [List.length_append, List.length_cons, List.length_replicate]
    omega

theorem progress_bar_well_formed_witness :
    (0 ≤ filledLength 500 200 ∧ filledLength 500 200 ≤ 15
        ∧ 0 ≤ 15 - filledLength 500 200 ∧ 15 - filledLength 500 200 ≤ 15)
      ∧ filledLength 500 200
        = (if (200 : Int) > 0 then
            round ((15 : ℚ) * min (((500 : Int) : ℚ) / ((200 : Int) : ℚ)) 1) else 0)
      ∧ ∃ bar : String, createProgressBar 500 200 = some bar
          ∧ bar.data = List.replicate (filledLength 500 200).toNat barChar
              ++ sliderChar :: List.replicate (15 - (filledLength 500 200).toNat) barChar
          ∧ bar.data.count barChar = 15
          ∧ bar.data.count sliderChar = 1
          ∧ bar.data.length = 16 :=
  progress_bar_well_formed 500 200 (by decide)

end Noibat
